import Mathlib

/-!
Verification development for the election-analytics aggregation layer of the
ELECTION_DATA_VISUALIZER repository (backend/controllers/electionController.js
and backend/database/sqlite-helpers.js).

The relational store is embedded shallowly: each table is a list of rows, an
SQL inner join is a `List.bind` over the matching parent rows, `GROUP BY` is
"first-occurrence-deduplicated keys, each paired with the rows matching that
key", `ORDER BY` is `List.insertionSort` with the relation of the ORDER BY
clause, and `LIMIT n OFFSET k` is `List.take n ∘ List.drop k`.  SQL `NULL` is
`Option.none`.  Machine floating-point numbers are modelled by exact rationals
(`ℚ`); the single square root of the source (Pearson's denominator) is
modelled by `Real.sqrt`.
-/

/-- A row of the `states` table: `{id, name}`. -/
structure StateRow where
  id : Nat
  name : String
deriving DecidableEq

/-- A row of the `parties` table: `{id, name, party_type_tcpd}`. -/
structure Party where
  id : Nat
  name : String
  party_type_tcpd : Option String
deriving DecidableEq

/-- A row of the `constituencies` table (the columns the controller reads). -/
structure Constituency where
  id : Nat
  state_id : Nat
  name : String
  constituency_no : Nat
  constituency_type : Option String
deriving DecidableEq

/-- A row of the `elections` table (the columns the controller reads). -/
structure Election where
  id : Nat
  year : Option Nat
deriving DecidableEq

/-- A row of the `candidates` table (the columns the controller reads). -/
structure Candidate where
  id : Nat
  name : String
  sex : Option String
  myneta_education : Option String
deriving DecidableEq

/-- A row of the `results` fact table (the columns the controller reads).
Nullable SQL columns are `Option`-valued. -/
structure ResultRow where
  election_id : Nat
  constituency_id : Nat
  candidate_id : Nat
  party_id : Nat
  position : Option Nat
  votes : Option Nat
  turnout_percentage : Option ℚ
  vote_share_percentage : Option ℚ
  margin_percentage : Option ℚ
deriving DecidableEq

/-- The whole relational store. -/
structure DB where
  states : List StateRow
  parties : List Party
  constituencies : List Constituency
  elections : List Election
  candidates : List Candidate
  results : List ResultRow

/-- `JOIN t ON idOf t = fk`: the rows of `t` matching a foreign key. -/
def tbl {β : Type} (l : List β) (idOf : β → Nat) (fk : Nat) : List β :=
  l.filter (fun b => decide (idOf b = fk))

/-- First-occurrence deduplication by a key, carrying the set of keys already
seen; this is the JS pattern `if (seen.has(k)) continue; seen.add(k)` and also
serves as the canonical key order of a `GROUP BY`. -/
def dedupByKeyAux {α κ : Type} [DecidableEq κ] (key : α → κ) (seen : List κ) :
    List α → List α
  | [] => []
  | a :: l =>
    if key a ∈ seen then dedupByKeyAux key seen l
    else a :: dedupByKeyAux key (key a :: seen) l

/-- First-occurrence deduplication of a list (keeps the first copy of each
element, in order of first appearance). -/
def firstDedup {κ : Type} [DecidableEq κ] (l : List κ) : List κ :=
  dedupByKeyAux (fun k => k) [] l

/-- `GROUP BY key` over a list of rows: the distinct keys in order of first
appearance, each paired with the sublist of rows having that key. -/
def groupBy {α κ : Type} [DecidableEq κ] (key : α → κ) (l : List α) :
    List (κ × List α) :=
  (firstDedup (l.map key)).map (fun k => (k, l.filter (fun a => decide (key a = k))))

/-- An optional equality filter on a `Nat` column (`AND col = $p` when the
query parameter is present, no condition otherwise). -/
def matchNat (flt : Option Nat) (v : Nat) : Bool :=
  match flt with
  | none => true
  | some x => decide (v = x)

/-- An optional equality filter on a `String` column. -/
def matchStr (flt : Option String) (v : String) : Bool :=
  match flt with
  | none => true
  | some x => decide (v = x)

/-- An optional equality filter on a nullable `String` column (SQL equality
against a non-null parameter is false on `NULL`). -/
def matchOptStr (flt : Option String) (v : Option String) : Bool :=
  match flt with
  | none => true
  | some x => decide (v = some x)

section DedupLemmas

variable {α κ : Type} [DecidableEq κ] (key : α → κ)

theorem dedupByKeyAux_subset (seen : List κ) (l : List α) :
    ∀ a ∈ dedupByKeyAux key seen l, a ∈ l := by
  induction l generalizing seen with
  | nil => simp [dedupByKeyAux]
  | cons b l ih =>
    intro a ha
    rw [dedupByKeyAux] at ha
    split at ha
    · exact List.mem_cons_of_mem _ (ih _ a ha)
    · rcases List.mem_cons.1 ha with h | h
      · exact h ▸ List.mem_cons_self _ _
      · exact List.mem_cons_of_mem _ (ih _ a h)

theorem dedupByKeyAux_keys_not_seen (seen : List κ) (l : List α) :
    ∀ a ∈ dedupByKeyAux key seen l, key a ∉ seen := by
  induction l generalizing seen with
  | nil => simp [dedupByKeyAux]
  | cons b l ih =>
    intro a ha
    rw [dedupByKeyAux] at ha
    split at ha
    · exact ih _ a ha
    · rcases List.mem_cons.1 ha with h | h
      · subst h; assumption
      · have := ih _ a h
        intro hs
        exact this (List.mem_cons_of_mem _ hs)

theorem dedupByKeyAux_keys_nodup (seen : List κ) (l : List α) :
    ((dedupByKeyAux key seen l).map key).Nodup := by
  induction l generalizing seen with
  | nil => simp [dedupByKeyAux]
  | cons b l ih =>
    rw [dedupByKeyAux]
    split
    · exact ih _
    · simp only [List.map_cons, List.nodup_cons]
      refine ⟨?_, ih _⟩
      intro hmem
      rcases List.mem_map.1 hmem with ⟨a, ha, hk⟩
      exact dedupByKeyAux_keys_not_seen key _ l a ha (hk ▸ List.mem_cons_self _ _)

theorem dedupByKeyAux_covers (seen : List κ) (l : List α) :
    ∀ a ∈ l, key a ∉ seen → ∃ u ∈ dedupByKeyAux key seen l, key u = key a := by
  induction l generalizing seen with
  | nil => simp
  | cons b l ih =>
    intro a ha hns
    rw [dedupByKeyAux]
    rcases List.mem_cons.1 ha with h | h
    · subst h
      split
      · next hb => exact absurd hb hns
      · exact ⟨a, List.mem_cons_self _ _, rfl⟩
    · split
      · exact ih seen a h hns
      · by_cases hk : key a = key b
        · exact ⟨b, List.mem_cons_self _ _, hk.symm⟩
        · have hns' : key a ∉ key b :: seen := by
            intro hmem
            rcases List.mem_cons.1 hmem with h1 | h1
            · exact hk h1
            · exact hns h1
          rcases ih (key b :: seen) a h hns' with ⟨u, hu, hku⟩
          exact ⟨u, List.mem_cons_of_mem _ hu, hku⟩

theorem dedupByKeyAux_eq_self (seen : List κ) (l : List α)
    (hnd : (l.map key).Nodup) (hs : ∀ a ∈ l, key a ∉ seen) :
    dedupByKeyAux key seen l = l := by
  induction l generalizing seen with
  | nil => rfl
  | cons b l ih =>
    rw [dedupByKeyAux]
    rw [List.map_cons, List.nodup_cons] at hnd
    rw [if_neg (hs b (List.mem_cons_self _ _))]
    congr 1
    refine ih _ hnd.2 ?_
    intro a ha hmem
    rcases List.mem_cons.1 hmem with h1 | h1
    · exact hnd.1 (h1 ▸ List.mem_map_of_mem key ha)
    · exact hs a (List.mem_cons_of_mem _ ha) h1

theorem mem_firstDedup {l : List κ} {k : κ} : k ∈ firstDedup l ↔ k ∈ l := by
  constructor
  · exact fun h => dedupByKeyAux_subset (fun k => k) [] l k h
  · intro h
    rcases dedupByKeyAux_covers (fun k => k) [] l k h (by simp) with ⟨u, hu, hku⟩
    exact hku ▸ hu

theorem nodup_firstDedup (l : List κ) : (firstDedup l).Nodup := by
  have := dedupByKeyAux_keys_nodup (fun k => k) [] l
  simpa using this

end DedupLemmas

section SumPartition

variable {α κ M : Type} [AddCommMonoid M]

theorem sum_map_add (A B : κ → M) (keys : List κ) :
    (keys.map (fun k => A k + B k)).sum = (keys.map A).sum + (keys.map B).sum := by
  induction keys with
  | nil => simp
  | cons k keys ih =>
    simp only [List.map_cons, List.sum_cons, ih]
    abel

theorem sum_map_single [DecidableEq κ] (keys : List κ) (hnd : keys.Nodup) (k0 : κ) (hk : k0 ∈ keys)
    (w : M) : (keys.map (fun k => if k0 = k then w else 0)).sum = w := by
  induction keys with
  | nil => cases hk
  | cons k keys ih =>
    rw [List.nodup_cons] at hnd
    simp only [List.map_cons, List.sum_cons]
    rcases List.mem_cons.1 hk with h | h
    · subst h
      rw [if_pos rfl]
      have : ∀ x ∈ keys.map (fun k => if k0 = k then w else 0), x = 0 := by
        intro x hx
        rcases List.mem_map.1 hx with ⟨k1, hk1, hx1⟩
        have : ¬ k0 = k1 := fun he => hnd.1 (he ▸ hk1)
        rw [if_neg this] at hx1
        exact hx1.symm
      rw [List.sum_eq_zero this, add_zero]
    · have hne : ¬ k0 = k := by
        intro he
        exact hnd.1 (he ▸ h)
      rw [if_neg hne, zero_add]
      exact ih hnd.2 h

/-- Partitioning a list by a key and summing per group gives the total sum:
the backbone of all the per-group percentage identities below. -/
theorem sum_partition [DecidableEq κ] (l : List α) (key : α → κ) (v : α → M) (keys : List κ)
    (hnd : keys.Nodup) (hcov : ∀ a ∈ l, key a ∈ keys) :
    (keys.map (fun k => ((l.filter (fun a => decide (key a = k))).map v).sum)).sum
      = (l.map v).sum := by
  induction l with
  | nil => simp
  | cons a l ih =>
    have hstep : ∀ k, ((a :: l).filter (fun x => decide (key x = k))).map v
        = (if key a = k then [v a] else []) ++ ((l.filter (fun x => decide (key x = k))).map v) := by
      intro k
      by_cases h : key a = k
      · simp [List.filter_cons, h]
      · simp [List.filter_cons, h]
    have hcov' : ∀ x ∈ l, key x ∈ keys := fun x hx => hcov x (List.mem_cons_of_mem _ hx)
    calc (keys.map (fun k => (((a :: l).filter (fun x => decide (key x = k))).map v).sum)).sum
        = (keys.map (fun k => (if key a = k then v a else 0)
            + ((l.filter (fun x => decide (key x = k))).map v).sum)).sum := by
          refine congrArg List.sum (List.map_congr_left ?_)
          intro k _
          rw [hstep k]
          by_cases h : key a = k <;> simp [h]
      _ = v a + ((l.map v).sum) := by
          rw [sum_map_add]
          rw [sum_map_single keys hnd (key a) (hcov a (List.mem_cons_self _ _)) (v a)]
          rw [ih hcov']
      _ = ((a :: l).map v).sum := by simp

theorem sum_map_const_nat (l : List α) : (l.map (fun _ => (1 : Nat))).sum = l.length := by
  induction l with
  | nil => rfl
  | cons a l ih => simp [ih, Nat.add_comm]

/-- Partition version for row counts: summing the group sizes over the distinct
keys gives the number of rows. -/
theorem length_partition [DecidableEq κ] (l : List α) (key : α → κ) (keys : List κ)
    (hnd : keys.Nodup) (hcov : ∀ a ∈ l, key a ∈ keys) :
    (keys.map (fun k => (l.filter (fun a => decide (key a = k))).length)).sum
      = l.length := by
  have h := sum_partition l key (fun _ => (1 : Nat)) keys hnd hcov
  rw [sum_map_const_nat] at h
  calc (keys.map (fun k => (l.filter (fun a => decide (key a = k))).length)).sum
      = (keys.map (fun k => ((l.filter (fun a => decide (key a = k))).map (fun _ => (1 : Nat))).sum)).sum := by
        refine congrArg List.sum (List.map_congr_left ?_)
        intro k _
        rw [sum_map_const_nat]
    _ = l.length := h

end SumPartition

/-- The number of result rows joined to elections of year `y`
(`FROM elections e2 JOIN results r2 ON e2.id = r2.election_id WHERE e2.year = y`). -/
def yearResultCount (db : DB) (y : Nat) : Nat :=
  ((db.elections.filter (fun e => decide (e.year = some y))).flatMap
    (fun e => db.results.filter (fun r => decide (r.election_id = e.id)))).length

/-- The `validYearsFilter` subquery of the controller: the distinct non-null
election years having at least 1000 joined result rows.  The subquery is
uncorrelated with the outer query, so it denotes a single list per store. -/
def validYears (db : DB) : List Nat :=
  (firstDedup (db.elections.filterMap (fun e => e.year))).filter
    (fun y => decide (1000 ≤ yearResultCount db y))

/-- The per-row condition contributed by `validYearsFilter`:
`e.year IN (SELECT ...)`. -/
def yearOk (db : DB) (e : Election) : Bool :=
  match e.year with
  | some y => decide (y ∈ validYears db)
  | none => false

theorem mem_validYears {db : DB} {y : Nat} (h : y ∈ validYears db) :
    1000 ≤ yearResultCount db y := by
  rw [validYears, List.mem_filter] at h
  exact of_decide_eq_true h.2

theorem yearOk_eq_true {db : DB} {e : Election} (h : yearOk db e = true) :
    ∃ y, e.year = some y ∧ 1000 ≤ yearResultCount db y := by
  rw [yearOk] at h
  cases he : e.year with
  | none => rw [he] at h; cases h
  | some y =>
    rw [he] at h
    exact ⟨y, rfl, mem_validYears (of_decide_eq_true h)⟩

/-- The two clauses `e.year = $year` and `validYearsFilter` that open the
WHERE clause of every year-required metric. -/
def yearIs (db : DB) (year : Nat) (e : Election) : Bool :=
  decide (e.year = some year) && yearOk db e

/-- District resolution (`SELECT name FROM constituencies WHERE id = $1`,
keep the first row's name if any): a district id is mapped to the name of the
constituency row with that id; an unresolvable id yields no name and hence no
filter. -/
def resolveDistrict (db : DB) (district : Option Nat) : Option String :=
  district.bind (fun d =>
    ((db.constituencies.filter (fun c => decide (c.id = d))).head?).map (fun c => c.name))

/-- Joined row of `results ⋈ elections ⋈ parties ⋈ constituencies ⋈ candidates`
(the seat-share and per-party vote-share queries). -/
structure SRow where
  r : ResultRow
  e : Election
  p : Party
  c : Constituency
  cand : Candidate
deriving DecidableEq

/-- Joined row of `results ⋈ elections ⋈ constituencies ⋈ candidates`
(the vote-share total query and the KPI queries). -/
structure VRow where
  r : ResultRow
  e : Election
  c : Constituency
  cand : Candidate
deriving DecidableEq

/-- Joined row of `results ⋈ elections ⋈ constituencies ⋈ states`
(the turnout query). -/
structure TRow where
  r : ResultRow
  e : Election
  c : Constituency
  s : StateRow
deriving DecidableEq

/-- Joined row of `results ⋈ elections ⋈ constituencies ⋈ states ⋈ parties`
(the by-state vote-share query). -/
structure WRow where
  r : ResultRow
  e : Election
  c : Constituency
  s : StateRow
  p : Party
deriving DecidableEq

/-- Joined row of all six tables (the gender-trend and elections queries). -/
structure GRow where
  r : ResultRow
  e : Election
  cand : Candidate
  c : Constituency
  s : StateRow
  p : Party
deriving DecidableEq

/-- Joined row of the margins self-join: the winner result `r1` with its
parents plus the runner-up result `r2` with its party and candidate. -/
structure MRow where
  r1 : ResultRow
  e : Election
  c : Constituency
  s : StateRow
  p1 : Party
  cand1 : Candidate
  r2 : ResultRow
  p2 : Party
  cand2 : Candidate
deriving DecidableEq

/-- Joined row of `results ⋈ elections ⋈ parties` (the seat-changes and
national-vs-regional queries). -/
structure PRow where
  r : ResultRow
  e : Election
  p : Party
deriving DecidableEq

/-- Joined row of `results ⋈ elections ⋈ candidates ⋈ constituencies ⋈ states`
(the women-candidates query). -/
structure WCRow where
  r : ResultRow
  e : Election
  cand : Candidate
  c : Constituency
  s : StateRow
deriving DecidableEq

/-- The joined tuples contributed by one result row to `sJoin`. -/
def sBlock (db : DB) (r : ResultRow) : List SRow :=
  (tbl db.elections (fun e => e.id) r.election_id).flatMap fun e =>
    (tbl db.parties (fun p => p.id) r.party_id).flatMap fun p =>
      (tbl db.constituencies (fun c => c.id) r.constituency_id).flatMap fun c =>
        (tbl db.candidates (fun cd => cd.id) r.candidate_id).map fun cand =>
          ⟨r, e, p, c, cand⟩

def sJoin (db : DB) : List SRow :=
  db.results.flatMap (sBlock db)

/-- The joined tuples contributed by one result row to `vJoin`. -/
def vBlock (db : DB) (r : ResultRow) : List VRow :=
  (tbl db.elections (fun e => e.id) r.election_id).flatMap fun e =>
    (tbl db.constituencies (fun c => c.id) r.constituency_id).flatMap fun c =>
      (tbl db.candidates (fun cd => cd.id) r.candidate_id).map fun cand =>
        ⟨r, e, c, cand⟩

def vJoin (db : DB) : List VRow :=
  db.results.flatMap (vBlock db)

def tJoin (db : DB) : List TRow :=
  db.results.flatMap fun r =>
    (tbl db.elections (fun e => e.id) r.election_id).flatMap fun e =>
      (tbl db.constituencies (fun c => c.id) r.constituency_id).flatMap fun c =>
        (tbl db.states (fun s => s.id) c.state_id).map fun s =>
          ⟨r, e, c, s⟩

def wJoin (db : DB) : List WRow :=
  db.results.flatMap fun r =>
    (tbl db.elections (fun e => e.id) r.election_id).flatMap fun e =>
      (tbl db.constituencies (fun c => c.id) r.constituency_id).flatMap fun c =>
        (tbl db.states (fun s => s.id) c.state_id).flatMap fun s =>
          (tbl db.parties (fun p => p.id) r.party_id).map fun p =>
            ⟨r, e, c, s, p⟩

def gJoin (db : DB) : List GRow :=
  db.results.flatMap fun r =>
    (tbl db.elections (fun e => e.id) r.election_id).flatMap fun e =>
      (tbl db.candidates (fun cd => cd.id) r.candidate_id).flatMap fun cand =>
        (tbl db.constituencies (fun c => c.id) r.constituency_id).flatMap fun c =>
          (tbl db.states (fun s => s.id) c.state_id).flatMap fun s =>
            (tbl db.parties (fun p => p.id) r.party_id).map fun p =>
              ⟨r, e, cand, c, s, p⟩

def mJoin (db : DB) : List MRow :=
  db.results.flatMap fun r1 =>
    (tbl db.elections (fun e => e.id) r1.election_id).flatMap fun e =>
      (tbl db.constituencies (fun c => c.id) r1.constituency_id).flatMap fun c =>
        (tbl db.states (fun s => s.id) c.state_id).flatMap fun s =>
          (tbl db.parties (fun p => p.id) r1.party_id).flatMap fun p1 =>
            (tbl db.candidates (fun cd => cd.id) r1.candidate_id).flatMap fun cand1 =>
              (db.results.filter (fun r2 => decide (r1.constituency_id = r2.constituency_id)
                  && decide (r1.election_id = r2.election_id))).flatMap fun r2 =>
                (tbl db.parties (fun p => p.id) r2.party_id).flatMap fun p2 =>
                  (tbl db.candidates (fun cd => cd.id) r2.candidate_id).map fun cand2 =>
                    ⟨r1, e, c, s, p1, cand1, r2, p2, cand2⟩

def pJoin (db : DB) : List PRow :=
  db.results.flatMap fun r =>
    (tbl db.elections (fun e => e.id) r.election_id).flatMap fun e =>
      (tbl db.parties (fun p => p.id) r.party_id).map fun p =>
        ⟨r, e, p⟩

def wcJoin (db : DB) : List WCRow :=
  db.results.flatMap fun r =>
    (tbl db.elections (fun e => e.id) r.election_id).flatMap fun e =>
      (tbl db.candidates (fun cd => cd.id) r.candidate_id).flatMap fun cand =>
        (tbl db.constituencies (fun c => c.id) r.constituency_id).flatMap fun c =>
          (tbl db.states (fun s => s.id) c.state_id).map fun s =>
            ⟨r, e, cand, c, s⟩

/-! Order relations of the `ORDER BY` clauses.  SQLite sorts `NULL` first in
ascending order and last in descending order. -/

abbrev natAsc (a b : Nat) : Prop := a ≤ b

abbrev natDesc (a b : Nat) : Prop := b ≤ a

/-- Byte-order (ASCII) comparison of char lists: the `BINARY` collation of
SQLite's `ORDER BY` on text columns. -/
def charListLe : List Char → List Char → Bool
  | [], _ => true
  | _ :: _, [] => false
  | c :: cs, d :: ds => decide (c < d) || (decide (c = d) && charListLe cs ds)

def strAsc (a b : String) : Prop := charListLe a.toList b.toList = true

instance : DecidableRel strAsc := fun a b =>
  inferInstanceAs (Decidable (charListLe a.toList b.toList = true))

abbrev qDesc (a b : ℚ) : Prop := b ≤ a

abbrev intDesc (a b : Int) : Prop := b ≤ a

def onAsc : Option Nat → Option Nat → Prop
  | none, _ => True
  | some _, none => False
  | some x, some y => x ≤ y

instance : DecidableRel onAsc := fun a b =>
  match a, b with
  | none, _ => .isTrue trivial
  | some _, none => .isFalse id
  | some x, some y => inferInstanceAs (Decidable (x ≤ y))

def onDesc : Option Nat → Option Nat → Prop
  | none, none => True
  | none, some _ => False
  | some _, none => True
  | some x, some y => y ≤ x

instance : DecidableRel onDesc := fun a b =>
  match a, b with
  | none, none => .isTrue trivial
  | none, some _ => .isFalse id
  | some _, none => .isTrue trivial
  | some x, some y => inferInstanceAs (Decidable (y ≤ x))

def osAsc : Option String → Option String → Prop
  | none, _ => True
  | some _, none => False
  | some x, some y => strAsc x y

instance : DecidableRel osAsc := fun a b =>
  match a, b with
  | none, _ => .isTrue trivial
  | some _, none => .isFalse id
  | some x, some y => inferInstanceAs (Decidable (strAsc x y))

def oqAsc : Option ℚ → Option ℚ → Prop
  | none, _ => True
  | some _, none => False
  | some x, some y => x ≤ y

instance : DecidableRel oqAsc := fun a b =>
  match a, b with
  | none, _ => .isTrue trivial
  | some _, none => .isFalse id
  | some x, some y => inferInstanceAs (Decidable (x ≤ y))

/-- Two-level lexicographic comparison: order by `f` under `rb` first and tie
break by `g` under `rg`. -/
abbrev lex2 {α β γ : Type} [DecidableEq β] (f : α → β) (g : α → γ)
    (rb : β → β → Prop) (rg : γ → γ → Prop) (a b : α) : Prop :=
  (f a = f b ∧ rg (g a) (g b)) ∨ (f a ≠ f b ∧ rb (f a) (f b))

/-! Output row shapes of the metric functions. -/

/-- One district group of a seat-share row's winner rollup. -/
structure DistrictWinners where
  district : String
  winners : List String
deriving DecidableEq

/-- A `(party, seats)` row of the seat-share aggregate query. -/
structure SeatCount where
  party : String
  seats : Nat
deriving DecidableEq

/-- A seat-share output row. -/
structure SeatRow where
  party : String
  seats : Nat
  winnersByDistrict : List DistrictWinners
deriving DecidableEq

/-- A `(party, total_votes)` row of the aggregated vote-share query. -/
structure PVRow where
  party : String
  total_votes : Nat
deriving DecidableEq

/-- An aggregated vote-share output row. -/
structure VoteShareRow where
  party : String
  total_votes : Nat
  vote_share_pct : ℚ
deriving DecidableEq

/-- A by-state vote-share output row.  `SUM` and `AVG` over an SQL group skip
`NULL` values and are `NULL` when every value is `NULL`. -/
structure StateVoteRow where
  state : String
  party : String
  total_votes : Option Nat
  avg_vote_share : Option ℚ
deriving DecidableEq

/-- A turnout output row. -/
structure TORow where
  state : String
  turnout_pct : ℚ
deriving DecidableEq

/-- A `(year, sex, count)` row of the gender-trend query. -/
structure GenderCountRow where
  year : Option Nat
  gender : Option String
  count : Nat
deriving DecidableEq

/-- A gender-trend output row (count row plus the computed percentage). -/
structure GenderTrendRow where
  year : Option Nat
  gender : Option String
  count : Nat
  percentage : ℚ
deriving DecidableEq

/-- A margins / closest-contests output row. -/
structure MarginRow where
  year : Option Nat
  state_name : String
  constituency_name : String
  winner_party : String
  winner : String
  winner_votes : Option Nat
  runner_up_party : String
  runner_up : String
  runner_up_votes : Option Nat
  margin : Option Int
  margin_percentage : Option ℚ
deriving DecidableEq

/-- The KPI output object. -/
structure KPIResult where
  total_seats : Nat
  overall_turnout : ℚ
  women_candidates_pct : ℚ
deriving DecidableEq

/-- A seat-changes output row. -/
structure SeatChangeRow where
  party : String
  year1_seats : Nat
  year2_seats : Nat
  change : Int
deriving DecidableEq

/-- A women-candidates output row. -/
structure WomenRow where
  year : Option Nat
  state : String
  women_count : Nat
  total_count : Nat
  percentage : ℚ
deriving DecidableEq

/-- A `(year, party_type, total_votes)` row of the national-vs-regional
query. -/
structure NVRCountRow where
  year : Option Nat
  party_type : String
  total_votes : Nat
deriving DecidableEq

/-- A national-vs-regional output row. -/
structure NVRRow where
  year : Option Nat
  party_type : String
  total_votes : Nat
  vote_share_pct : ℚ
deriving DecidableEq

/-- A row of the elections listing endpoint. -/
structure ERow where
  year : Option Nat
  state_name : String
  constituency_name : String
  party_name : String
  candidate_name : String
  gender : Option String
  votes : Option Nat
  vote_share_percentage : Option ℚ
  turnout_percentage : Option ℚ
  margin_percentage : Option ℚ
  position : Option Nat
deriving DecidableEq

/-- A constituencies-list output row. -/
structure CLRow where
  id : Nat
  name : String
  constituency_no : Nat
  constituency_type : Option String
deriving DecidableEq

/-! Character-level helpers for SQL `LIKE '%pat%'` (SQLite `LIKE` and
Postgres `ILIKE` are case-insensitive on ASCII). -/

/-- Does the second character list occur at the head of the first? -/
def leadMatch : List Char → List Char → Bool
  | _, [] => true
  | [], _ :: _ => false
  | c :: cs, d :: ds => decide (c = d) && leadMatch cs ds

/-- Does `pat` occur as a contiguous run anywhere in the list? -/
def subMatch (pat : List Char) : List Char → Bool
  | [] => decide (pat = [])
  | c :: cs => leadMatch (c :: cs) pat || subMatch pat cs

/-- Case-insensitive substring test, the meaning of `col LIKE '%q%'`. -/
def strHasCI (s q : String) : Bool :=
  subMatch (q.toList.map Char.toLower) (s.toList.map Char.toLower)

/-- An optional equality filter on a nullable `Nat` column. -/
def matchOptNat (flt : Option Nat) (v : Option Nat) : Bool :=
  match flt with
  | none => true
  | some x => decide (v = some x)

/-- SQL `AVG` over the non-`NULL` values of a (nonempty) group. -/
def ratAvg (l : List ℚ) : ℚ := l.sum / l.length

/-- `votes IS NOT NULL AND votes > 0`. -/
def votesPos (r : ResultRow) : Bool :=
  match r.votes with
  | some v => decide (0 < v)
  | none => false

/-! The metric functions of `electionController.js`. -/

/-- `getYears`: distinct valid years, newest first, then the JS guard
`year > 0`. -/
def getYears (db : DB) : List Nat :=
  ((validYears db).insertionSort natDesc).filter (fun y => decide (0 < y))

/-- `getConstituenciesList` after district resolution: individual
constituency rows filtered by state id and district name. -/
def getConstituenciesListCore (db : DB) (state : Option Nat) (dn : Option String) :
    List CLRow :=
  ((db.constituencies.filter (fun c => matchNat state c.state_id && matchStr dn c.name)).map
    (fun c => ⟨c.id, c.name, c.constituency_no, c.constituency_type⟩)).insertionSort
    (lex2 (fun x : CLRow => x.name) (fun x => x.constituency_no) strAsc natAsc)

/-- `getConstituenciesList`. -/
def getConstituenciesList (db : DB) (state district : Option Nat) : List CLRow :=
  getConstituenciesListCore db state (resolveDistrict db district)

/-- `getElections`: the filtered listing of result rows with
`ORDER BY e.year DESC, r.votes DESC LIMIT $ OFFSET $`. -/
def electionsBase (db : DB) (year state party : Option Nat)
    (constituency : Option String) : List GRow :=
  (gJoin db).filter (fun t => yearOk db t.e
    && matchOptNat year t.e.year
    && matchNat state t.s.id
    && matchNat party t.p.id
    && (match constituency with
        | none => true
        | some q => strHasCI t.c.name q))

def getElections (db : DB) (year state party : Option Nat) (constituency : Option String)
    (limit offset : Nat) : List ERow :=
  ((((electionsBase db year state party constituency).map
    (fun t => ERow.mk t.e.year t.s.name t.c.name t.p.name t.cand.name
      t.cand.sex t.r.votes t.r.vote_share_percentage t.r.turnout_percentage
      t.r.margin_percentage t.r.position)).insertionSort
      (lex2 (fun x : ERow => x.year) (fun x => x.votes) onDesc onDesc)).drop offset).take limit

/-- The WHERE pieces shared between the seat-count query and the winner
rollup query of `getSeatShare` (year, valid years, `position = 1`, state,
district name, constituency). -/
def seatWhere (db : DB) (year : Nat) (state : Option Nat) (dn : Option String)
    (constituency : Option Nat) (t : SRow) : Bool :=
  yearIs db year t.e && decide (t.r.position = some 1)
    && matchNat state t.c.state_id && matchStr dn t.c.name && matchNat constituency t.c.id

/-- The filtered winner rows of the seat-count query of `getSeatShare`
(all six filters applied). -/
def seatBaseRows (db : DB) (year : Nat) (state party : Option Nat)
    (gender : Option String) (dn : Option String) (constituency : Option Nat) :
    List SRow :=
  (sJoin db).filter (fun t => seatWhere db year state dn constituency t
    && matchNat party t.p.id && matchOptStr gender t.cand.sex)

/-- The seat-count query of `getSeatShare`: winner rows under all six filters,
grouped by party name, counted and ordered by seat count descending. -/
def seatCountRows (db : DB) (year : Nat) (state party : Option Nat)
    (gender : Option String) (dn : Option String) (constituency : Option Nat) :
    List SeatCount :=
  ((groupBy (fun t : SRow => t.p.name)
      (seatBaseRows db year state party gender dn constituency)).map
    (fun g => SeatCount.mk g.1 g.2.length)).insertionSort
    (fun a b : SeatCount => b.seats ≤ a.seats)

/-- The winner rollup query of `getSeatShare` for one party name: note that it
reuses the state/district/constituency filters but applies neither the gender
filter nor the party-id filter (it filters by `p.name` instead). -/
def winnerRows (db : DB) (year : Nat) (state : Option Nat) (dn : Option String)
    (constituency : Option Nat) (pname : String) : List SRow :=
  ((sJoin db).filter (fun t => seatWhere db year state dn constituency t
    && decide (t.p.name = pname))).insertionSort
    (lex2 (fun t : SRow => t.c.name) (fun t => t)
      strAsc (lex2 (fun t : SRow => t.c.constituency_no) (fun t => t.cand.name) natAsc strAsc))

/-- The JS rollup of winner rows: deduplicate by the
`(constituency_id, candidate_id)` pair (first occurrence kept), then group the
winner names by district name. -/
def winnersByDistrictOf (l : List SRow) : List DistrictWinners :=
  let l' := dedupByKeyAux (fun t : SRow => (t.c.id, t.cand.id)) [] l
  (groupBy (fun t : SRow => t.c.name) l').map
    (fun g => DistrictWinners.mk g.1 (g.2.map (fun t => t.cand.name)))

/-- `getSeatShare` after district resolution. -/
def getSeatShareCore (db : DB) (year : Nat) (state party : Option Nat)
    (gender : Option String) (dn : Option String) (constituency : Option Nat) :
    List SeatRow :=
  (seatCountRows db year state party gender dn constituency).map
    (fun sc => SeatRow.mk sc.party sc.seats
      (winnersByDistrictOf (winnerRows db year state dn constituency sc.party)))

/-- `getSeatShare`. -/
def getSeatShare (db : DB) (year : Nat) (state party : Option Nat)
    (gender : Option String) (district constituency : Option Nat) : List SeatRow :=
  getSeatShareCore db year state party gender (resolveDistrict db district) constituency

/-- The filtered join of the turnout query. -/
def turnoutBase (db : DB) (year : Nat) (state : Option Nat) : List TRow :=
  (tJoin db).filter (fun t => yearIs db year t.e
    && t.r.turnout_percentage.isSome && matchNat state t.s.id)

/-- `getTurnout`: average turnout per state for a year, descending. -/
def getTurnout (db : DB) (year : Nat) (state : Option Nat) : List TORow :=
  ((groupBy (fun t : TRow => t.s.name) (turnoutBase db year state)).map
    (fun g => TORow.mk g.1 (ratAvg (g.2.filterMap (fun t => t.r.turnout_percentage))))).insertionSort
    (fun a b : TORow => b.turnout_pct ≤ a.turnout_pct)

/-- The single WHERE clause shared verbatim between the overall-total query
and the per-party query of aggregated vote share (the source builds one
`whereClause` string and interpolates it into both queries). -/
def aggWhere (db : DB) (year : Nat) (state : Option Nat) (dn : Option String)
    (constituency : Option Nat) (gender : Option String)
    (r : ResultRow) (e : Election) (c : Constituency) (cand : Candidate) : Bool :=
  yearIs db year e && r.votes.isSome
    && matchNat state c.state_id && matchStr dn c.name
    && matchNat constituency c.id && matchOptStr gender cand.sex

/-- The rows of the overall-total query of aggregated vote share (which joins
results, elections, constituencies and candidates but not parties). -/
def aggTotalRows (db : DB) (year : Nat) (state : Option Nat) (dn : Option String)
    (constituency : Option Nat) (gender : Option String) : List VRow :=
  (vJoin db).filter (fun t => aggWhere db year state dn constituency gender t.r t.e t.c t.cand)

/-- The denominator of aggregated vote share.  `SUM(r.votes)` is `NULL` over
zero rows, and the JS fallback `totalVotesResult.rows[0]?.total_votes || 1`
maps both `NULL` and `0` to `1`, so the model checks `sum = 0`. -/
def aggTotalVotes (db : DB) (year : Nat) (state : Option Nat) (dn : Option String)
    (constituency : Option Nat) (gender : Option String) : Nat :=
  let s := ((aggTotalRows db year state dn constituency gender).map
    (fun t => t.r.votes.getD 0)).sum
  if s = 0 then 1 else s

/-- The rows of the per-party query of aggregated vote share (same WHERE
clause, plus a join to parties). -/
def aggPartyRows (db : DB) (year : Nat) (state : Option Nat) (dn : Option String)
    (constituency : Option Nat) (gender : Option String) : List SRow :=
  (sJoin db).filter (fun t => aggWhere db year state dn constituency gender t.r t.e t.c t.cand)

/-- Aggregated vote share after district resolution: per-party vote totals
ordered descending, with `vote_share_pct = total_votes * 100 / totalVotes`
computed in application code. -/
def getVoteShareAggCore (db : DB) (year : Nat) (state : Option Nat)
    (gender : Option String) (dn : Option String) (constituency : Option Nat) :
    List VoteShareRow :=
  let T := aggTotalVotes db year state dn constituency gender
  let counted := ((groupBy (fun t : SRow => t.p.name)
      (aggPartyRows db year state dn constituency gender)).map
    (fun g => PVRow.mk g.1 ((g.2.map (fun t => t.r.votes.getD 0)).sum))).insertionSort
    (fun a b : PVRow => b.total_votes ≤ a.total_votes)
  counted.map (fun pv => VoteShareRow.mk pv.party pv.total_votes
    ((pv.total_votes * 100 : ℚ) / T))

/-- The aggregated branch of `getVoteShare`. -/
def getVoteShareAgg (db : DB) (year : Nat) (state : Option Nat)
    (gender : Option String) (district constituency : Option Nat) : List VoteShareRow :=
  getVoteShareAggCore db year state gender (resolveDistrict db district) constituency

/-- The by-state branch of `getVoteShare`: grouped by (state, party), with
summed votes and the average of the precomputed row percentages. -/
def vsStateBase (db : DB) (year : Nat) (party : Option Nat) : List WRow :=
  (wJoin db).filter (fun t => yearIs db year t.e && matchNat party t.p.id)

def getVoteShareByState (db : DB) (year : Nat) (party : Option Nat) : List StateVoteRow :=
  ((groupBy (fun t : WRow => (t.s.name, t.p.name)) (vsStateBase db year party)).map (fun g =>
    let vs := g.2.filterMap (fun t => t.r.votes)
    let ps := g.2.filterMap (fun t => t.r.vote_share_percentage)
    StateVoteRow.mk g.1.1 g.1.2 (if vs = [] then none else some vs.sum)
      (if ps = [] then none else some (ratAvg ps)))).insertionSort
    (lex2 (fun x : StateVoteRow => x.state) (fun x => x.total_votes) strAsc onDesc)

/-- `getVoteShare`: the `aggregate` flag selects the branch.  The aggregated
branch destructures only state/gender/district/constituency from the query
and never reads the `party` parameter. -/
def getVoteShare (db : DB) (year : Nat) (party : Option Nat) (aggregate : Bool)
    (state : Option Nat) (gender : Option String) (district constituency : Option Nat) :
    List VoteShareRow ⊕ List StateVoteRow :=
  if aggregate then Sum.inl (getVoteShareAgg db year state gender district constituency)
  else Sum.inr (getVoteShareByState db year party)

/-- The per-year denominator of the gender-trend percentages: the sum of the
counts of the returned rows having that year (the JS `yearTotals` object). -/
def yearTotal (rows : List GenderCountRow) (y : Option Nat) : Nat :=
  ((rows.filter (fun r => decide (r.year = y))).map (fun r => r.count)).sum

/-- The filtered join of the gender-trend query. -/
def genderBase (db : DB) (party state : Option Nat) (gender : Option String)
    (dn : Option String) : List GRow :=
  (gJoin db).filter (fun t => t.cand.sex.isSome && yearOk db t.e
    && matchNat party t.p.id && matchNat state t.s.id
    && matchStr dn t.c.name && matchOptStr gender t.cand.sex)

/-- The (year, sex, count) rows returned by the gender-trend SQL query,
ordered by year then sex. -/
def genderCounted (db : DB) (party state : Option Nat) (gender : Option String)
    (dn : Option String) : List GenderCountRow :=
  ((groupBy (fun t : GRow => (t.e.year, t.cand.sex)) (genderBase db party state gender dn)).map
    (fun g => GenderCountRow.mk g.1.1 g.1.2 g.2.length)).insertionSort
    (lex2 (fun x : GenderCountRow => x.year) (fun x => x.gender) onAsc osAsc)

/-- Gender trend after district resolution: counts by (year, sex) over
non-null sexes, ordered by year then sex, with per-year percentages computed
in application code from the returned counts. -/
def getGenderTrendCore (db : DB) (party state : Option Nat) (gender : Option String)
    (dn : Option String) : List GenderTrendRow :=
  (genderCounted db party state gender dn).map
    (fun row => GenderTrendRow.mk row.year row.gender row.count
      (if 0 < yearTotal (genderCounted db party state gender dn) row.year
       then (row.count * 100 : ℚ) / (yearTotal (genderCounted db party state gender dn) row.year)
       else 0))

/-- `getGenderTrend`. -/
def getGenderTrend (db : DB) (party state : Option Nat) (gender : Option String)
    (district : Option Nat) : List GenderTrendRow :=
  getGenderTrendCore db party state gender (resolveDistrict db district)

/-- `r1.votes - r2.votes` under SQL `NULL` propagation. -/
def optSub (a b : Option Nat) : Option Int :=
  match a, b with
  | some x, some y => some ((x : Int) - y)
  | _, _ => none

/-- The SELECT list of the margins queries applied to one joined pair. -/
def marginRowOf (t : MRow) : MarginRow :=
  MarginRow.mk t.e.year t.s.name t.c.name t.p1.name t.cand1.name t.r1.votes
    t.p2.name t.cand2.name t.r2.votes (optSub t.r1.votes t.r2.votes)
    t.r1.margin_percentage

/-- The ORDER BY of the margins queries: ascending precomputed
`margin_percentage`, `NULL` first. -/
abbrev marginOrd (a b : MarginRow) : Prop := oqAsc a.margin_percentage b.margin_percentage

/-- `getMargins` after district resolution: winner/runner-up self-join pairs
under the filters, closest first, limited. -/
def marginsBaseRows (db : DB) (year state : Option Nat) (dn : Option String)
    (constituency : Option Nat) : List MRow :=
  (mJoin db).filter (fun t => decide (t.r1.position = some 1)
    && decide (t.r2.position = some 2) && yearOk db t.e
    && matchOptNat year t.e.year && matchNat state t.s.id
    && matchStr dn t.c.name && matchNat constituency t.c.id)

def getMarginsCore (db : DB) (year state : Option Nat) (limit : Nat)
    (dn : Option String) (constituency : Option Nat) : List MarginRow :=
  (((marginsBaseRows db year state dn constituency).map
    marginRowOf).insertionSort marginOrd).take limit

/-- `getMargins`. -/
def getMargins (db : DB) (year state : Option Nat) (limit : Nat)
    (district constituency : Option Nat) : List MarginRow :=
  getMarginsCore db year state limit (resolveDistrict db district) constituency

/-- `getClosestContests`: like margins but additionally requiring a non-null
`margin_percentage`, no state/district/constituency filters, and a hard-coded
limit of 10. -/
def closestBase (db : DB) (year : Option Nat) : List MRow :=
  (mJoin db).filter (fun t => decide (t.r1.position = some 1)
    && decide (t.r2.position = some 2) && t.r1.margin_percentage.isSome
    && yearOk db t.e && matchOptNat year t.e.year)

def getClosestContests (db : DB) (year : Option Nat) : List MarginRow :=
  (((closestBase db year).map marginRowOf).insertionSort marginOrd).take 10

/-- The WHERE clause shared by the three KPI subqueries (before each one's own
extra condition). -/
def kpiWhere (db : DB) (year : Nat) (state : Option Nat) (dn : Option String)
    (constituency : Option Nat) (gender : Option String) (t : VRow) : Bool :=
  yearIs db year t.e
    && matchNat state t.c.state_id && matchStr dn t.c.name
    && matchNat constituency t.c.id && matchOptStr gender t.cand.sex

/-- `getKPIs` after district resolution: three independent aggregations over
the shared filter, each with its own extra null-exclusion.  All three KPI
subqueries join the same four tables (results, elections, constituencies,
candidates), so they are all read off `vJoin`; the aggregates are insensitive
to the join order.  An SQL aggregate over zero rows is `NULL`, which the JS
`|| 0` maps to `0`. -/
def getKPIsCore (db : DB) (year : Nat) (state : Option Nat) (gender : Option String)
    (dn : Option String) (constituency : Option Nat) : KPIResult :=
  let base := (vJoin db).filter (kpiWhere db year state dn constituency gender)
  let winners := base.filter (fun t => decide (t.r.position = some 1))
  let turnouts := (base.filter (fun t => t.r.turnout_percentage.isSome)).filterMap
    (fun t => t.r.turnout_percentage)
  let sexRows := base.filter (fun t => t.cand.sex.isSome)
  let women := (sexRows.filter (fun t => decide (t.cand.sex = some "F"))).length
  KPIResult.mk
    (firstDedup (winners.map (fun t => t.c.id))).length
    (if turnouts = [] then 0 else ratAvg turnouts)
    (if sexRows = [] then 0 else (women * 100 : ℚ) / sexRows.length)

/-- `getKPIs`. -/
def getKPIs (db : DB) (year : Nat) (state : Option Nat) (gender : Option String)
    (district constituency : Option Nat) : KPIResult :=
  getKPIsCore db year state gender (resolveDistrict db district) constituency

/-- The winner rows of one year's side of `getSeatChanges`
(results joined to elections and parties). -/
def seatChangeBase (db : DB) (y : Nat) : List PRow :=
  (pJoin db).filter (fun t => yearIs db y t.e && decide (t.r.position = some 1))

/-- The party names holding at least one seat (a `position = 1` result row,
joined and valid-year-filtered) in year `y`. -/
def winnerPartyNames (db : DB) (y : Nat) : List String :=
  (seatChangeBase db y).map (fun t => t.p.name)

/-- One year's side of `getSeatChanges`: `(party, seats)` for the winner rows
of that year, grouped by party name. -/
def seatCountsForYear (db : DB) (y : Nat) : List (String × Nat) :=
  (groupBy (fun t : PRow => t.p.name) (seatChangeBase db y)).map (fun g => (g.1, g.2.length))

/-- The LEFT JOIN side of `getSeatChanges`: every year-1 party row, joined to
the year-2 rows with the same party name, with `COALESCE(y2.seats, 0)`. -/
def scPart1 (c1 c2 : List (String × Nat)) : List SeatChangeRow :=
  c1.flatMap (fun a =>
    let m := c2.filter (fun b => decide (b.1 = a.1))
    if m = [] then [SeatChangeRow.mk a.1 a.2 0 ((0 : Int) - a.2)]
    else m.map (fun b => SeatChangeRow.mk a.1 a.2 b.2 ((b.2 : Int) - a.2)))

/-- The anti-joined side of `getSeatChanges`: the year-2 party rows whose
party name occurs in no year-1 row (`WHERE y1.party IS NULL`). -/
def scPart2 (c1 c2 : List (String × Nat)) : List SeatChangeRow :=
  (c2.filter (fun b => c1.all (fun a => decide (a.1 ≠ b.1)))).map
    (fun b => SeatChangeRow.mk b.1 0 b.2 (b.2 : Int))

/-- `getSeatChanges`: a full outer join on party name emulated (as in the
source SQL) by a LEFT JOIN plus an anti-joined right side, `UNION`ed
(duplicate output rows removed) and ordered by `change` descending. -/
def getSeatChanges (db : DB) (y1 y2 : Nat) : List SeatChangeRow :=
  ((scPart1 (seatCountsForYear db y1) (seatCountsForYear db y2)
    ++ scPart2 (seatCountsForYear db y1) (seatCountsForYear db y2)).dedup).insertionSort
    (fun a b : SeatChangeRow => b.change ≤ a.change)

/-- `getWomenCandidates`: per (year, state) counts of female and all
candidates with the percentage computed in SQL. -/
def wcBase (db : DB) (year state : Option Nat) : List WCRow :=
  (wcJoin db).filter (fun t => t.cand.sex.isSome && yearOk db t.e
    && matchOptNat year t.e.year && matchNat state t.s.id)

def getWomenCandidates (db : DB) (year state : Option Nat) : List WomenRow :=
  ((groupBy (fun t : WCRow => (t.e.year, t.s.name)) (wcBase db year state)).map (fun g =>
    let wc := (g.2.filter (fun t => decide (t.cand.sex = some "F"))).length
    WomenRow.mk g.1.1 g.1.2 wc g.2.length ((wc * 100 : ℚ) / g.2.length))).insertionSort
    (lex2 (fun x : WomenRow => x.year) (fun x => x.state) onAsc strAsc)

/-- The National/Regional/Other bucket of a party: SQLite `LIKE` is
case-insensitive on ASCII, so the source's
`pt LIKE '%National%' OR UPPER(pt) LIKE '%NATIONAL%'` denotes a
case-insensitive substring test; `NULL` and unmatched values are `Other`. -/
def partyBucket (pt : Option String) : String :=
  match pt with
  | none => "Other"
  | some s =>
    if strHasCI s "National" then "National"
    else if strHasCI s "Regional" then "Regional"
    else "Other"

/-- The rows of the per-year totals query of `getNationalVsRegionalVoteShare`
(results joined to elections only, positive non-null votes, valid years). -/
def nvrTotalRows (db : DB) : List (ResultRow × Election) :=
  (db.results.flatMap (fun r =>
    (tbl db.elections (fun e => e.id) r.election_id).map (fun e => (r, e)))).filter
    (fun t => votesPos t.1 && yearOk db t.2)

/-- The per-year overall vote total of `getNationalVsRegionalVoteShare` (the
JS `yearTotals` object; a year absent from the totals gives 0). -/
def nvrYearTotal (db : DB) (y : Option Nat) : Nat :=
  (((nvrTotalRows db).filter (fun t => decide (t.2.year = y))).map
    (fun t => t.1.votes.getD 0)).sum

/-- `getNationalVsRegionalVoteShare`: votes per (year, bucket) with the
percentage against that year's all-party total computed in application code
(0 when the year total is not positive). -/
def nvrBase (db : DB) : List PRow :=
  (pJoin db).filter (fun t => votesPos t.r && yearOk db t.e)

def getNationalVsRegional (db : DB) : List NVRRow :=
  let counted := ((groupBy (fun t : PRow => (t.e.year, partyBucket t.p.party_type_tcpd)) (nvrBase db)).map
    (fun g => NVRCountRow.mk g.1.1 g.1.2 ((g.2.map (fun t => t.r.votes.getD 0)).sum))).insertionSort
    (lex2 (fun x : NVRCountRow => x.year) (fun x => x.party_type) onAsc strAsc)
  counted.map (fun row => NVRRow.mk row.year row.party_type row.total_votes
    (if 0 < nvrYearTotal db row.year
     then (row.total_votes * 100 : ℚ) / (nvrYearTotal db row.year) else 0))

/-! `calculateCorrelation` from `sqlite-helpers.js`.  Each JS `reduce` is a
sum over the indices `0 .. n-1`; `sumXY` indexes both arrays.  JS numbers are
modelled by exact rationals and `Math.sqrt` by `Real.sqrt`.  -/

/-- `sumX` / `sumY`: the sum of a list, written as its indexed sum. -/
def pSum (xs : List ℚ) : ℚ := ∑ i ∈ Finset.range xs.length, xs.getD i 0

/-- `sumX2` / `sumY2`. -/
def pSum2 (xs : List ℚ) : ℚ := ∑ i ∈ Finset.range xs.length, xs.getD i 0 * xs.getD i 0

/-- `sumXY` (indexed over the first list, as in the source). -/
def pSumXY (xs ys : List ℚ) : ℚ :=
  ∑ i ∈ Finset.range xs.length, xs.getD i 0 * ys.getD i 0

/-- The Pearson numerator `n·Σxy − Σx·Σy`. -/
def pearsonNum (xs ys : List ℚ) : ℚ :=
  xs.length * pSumXY xs ys - pSum xs * pSum ys

/-- The square of the Pearson denominator,
`(n·Σx² − (Σx)²) · (n·Σy² − (Σy)²)`. -/
def pearsonDen2 (xs ys : List ℚ) : ℚ :=
  (xs.length * pSum2 xs - pSum xs * pSum xs)
    * (xs.length * pSum2 ys - pSum ys * pSum ys)

/-- `calculateCorrelation`: `null` on unequal lengths or empty input; the
source then takes `denominator = Math.sqrt(pearsonDen2)` and returns `null`
when `denominator === 0`.  Since `pearsonDen2 ≥ 0` (proved below as
`pearsonDen2_nonneg`), `Real.sqrt pearsonDen2 = 0 ↔ pearsonDen2 = 0`, which
is the test used here. -/
noncomputable def calculateCorrelation (xs ys : List ℚ) : Option ℝ :=
  if xs.length ≠ ys.length ∨ xs.length = 0 then none
  else if pearsonDen2 xs ys = 0 then none
  else some ((pearsonNum xs ys : ℝ) / Real.sqrt ((pearsonDen2 xs ys : ℚ) : ℝ))

theorem pearson_factor_nonneg (xs : List ℚ) :
    0 ≤ (xs.length : ℚ) * pSum2 xs - pSum xs * pSum xs := by
  have h := Finset.sum_mul_sq_le_sq_mul_sq (Finset.range xs.length)
    (fun i => xs.getD i 0) (fun _ => (1 : ℚ))
  simp only [mul_one, one_pow, Finset.sum_const, Finset.card_range, nsmul_eq_mul] at h
  have h2 : (∑ i ∈ Finset.range xs.length, xs.getD i 0 ^ 2) = pSum2 xs := by
    rw [pSum2]
    exact Finset.sum_congr rfl (fun i _ => sq (xs.getD i 0))
  rw [h2] at h
  have h3 : pSum xs * pSum xs = (∑ i ∈ Finset.range xs.length, xs.getD i 0) ^ 2 := by
    rw [pSum, sq]
  nlinarith [h]

theorem pearsonDen2_nonneg (xs ys : List ℚ) (h : xs.length = ys.length) :
    0 ≤ pearsonDen2 xs ys := by
  have h1 := pearson_factor_nonneg xs
  have h2 := pearson_factor_nonneg ys
  rw [← h] at h2
  exact mul_nonneg h1 h2

theorem pearsonNum_sq_le (xs ys : List ℚ) (h : xs.length = ys.length) :
    pearsonNum xs ys ^ 2 ≤ pearsonDen2 xs ys := by
  rcases Nat.eq_zero_or_pos xs.length with hn | hn
  · rw [pearsonNum, pearsonDen2, pSum, pSum, pSum2, pSumXY, hn, ← h, hn]
    simp
  set n : ℕ := xs.length with hnx
  set x : ℕ → ℚ := fun i => xs.getD i 0 with hx
  set y : ℕ → ℚ := fun i => ys.getD i 0 with hy
  have hSy : pSum ys = ∑ i ∈ Finset.range n, y i := by rw [pSum, ← h]
  have hSy2 : pSum2 ys = ∑ i ∈ Finset.range n, y i * y i := by rw [pSum2, ← h]
  set Sx : ℚ := pSum xs with hSx
  set Sy : ℚ := pSum ys with hSyd
  set Sxy : ℚ := pSumXY xs ys with hSxy
  set Sxx : ℚ := pSum2 xs with hSxx
  set Syy : ℚ := pSum2 ys with hSyy
  set u : ℕ → ℚ := fun i => (n : ℚ) * x i - Sx with hu
  set v : ℕ → ℚ := fun i => (n : ℚ) * y i - Sy with hv
  have hxsum : Sx = ∑ i ∈ Finset.range n, x i := by rw [hSx, pSum]
  have e1 : (∑ i ∈ Finset.range n, u i * v i) = (n : ℚ) * pearsonNum xs ys := by
    have expand : ∀ i ∈ Finset.range n,
        u i * v i = (n : ℚ) * (n : ℚ) * (x i * y i)
          - ((n : ℚ) * Sy) * x i - ((n : ℚ) * Sx) * y i + Sx * Sy := by
      intro i _
      rw [hu, hv]; ring
    rw [Finset.sum_congr rfl expand]
    simp only [Finset.sum_add_distrib, Finset.sum_sub_distrib, ← Finset.mul_sum,
      Finset.sum_const, Finset.card_range, nsmul_eq_mul]
    rw [pearsonNum, ← hxsum, ← hSy, ← hSyd, ← hnx]
    rw [show (∑ i ∈ Finset.range n, x i * y i) = Sxy by rw [hSxy, pSumXY]]
    ring
  have e2 : (∑ i ∈ Finset.range n, u i * u i)
      = (n : ℚ) * ((n : ℚ) * Sxx - Sx * Sx) := by
    have expand : ∀ i ∈ Finset.range n,
        u i * u i = (n : ℚ) * (n : ℚ) * (x i * x i)
          - ((n : ℚ) * Sx) * x i - ((n : ℚ) * Sx) * x i + Sx * Sx := by
      intro i _
      rw [hu]; ring
    rw [Finset.sum_congr rfl expand]
    simp only [Finset.sum_add_distrib, Finset.sum_sub_distrib, ← Finset.mul_sum,
      Finset.sum_const, Finset.card_range, nsmul_eq_mul]
    rw [← hxsum]
    rw [show (∑ i ∈ Finset.range n, x i * x i) = Sxx by rw [hSxx, pSum2]]
    ring
  have e3 : (∑ i ∈ Finset.range n, v i * v i)
      = (n : ℚ) * ((n : ℚ) * Syy - Sy * Sy) := by
    have expand : ∀ i ∈ Finset.range n,
        v i * v i = (n : ℚ) * (n : ℚ) * (y i * y i)
          - ((n : ℚ) * Sy) * y i - ((n : ℚ) * Sy) * y i + Sy * Sy := by
      intro i _
      rw [hv]; ring
    rw [Finset.sum_congr rfl expand]
    simp only [Finset.sum_add_distrib, Finset.sum_sub_distrib, ← Finset.mul_sum,
      Finset.sum_const, Finset.card_range, nsmul_eq_mul]
    rw [← hSy]
    rw [show (∑ i ∈ Finset.range n, y i * y i) = Syy by rw [hSy2]]
    ring
  have cs := Finset.sum_mul_sq_le_sq_mul_sq (Finset.range n) u v
  have hsqu : (∑ i ∈ Finset.range n, u i ^ 2) = ∑ i ∈ Finset.range n, u i * u i :=
    Finset.sum_congr rfl (fun i _ => sq (u i))
  have hsqv : (∑ i ∈ Finset.range n, v i ^ 2) = ∑ i ∈ Finset.range n, v i * v i :=
    Finset.sum_congr rfl (fun i _ => sq (v i))
  rw [hsqu, hsqv, e1, e2, e3] at cs
  have hden : pearsonDen2 xs ys = ((n : ℚ) * Sxx - Sx * Sx) * ((n : ℚ) * Syy - Sy * Sy) := by
    rw [pearsonDen2, ← hSx, ← hSxx, ← hSyd, ← hSyy, ← hnx]
  have hnq : (0 : ℚ) < (n : ℚ) := by exact_mod_cast hn
  rw [hden]
  have hn2 : (0 : ℚ) < (n : ℚ) ^ 2 := by positivity
  have key : (n : ℚ) ^ 2 * (pearsonNum xs ys ^ 2)
      ≤ (n : ℚ) ^ 2 * (((n : ℚ) * Sxx - Sx * Sx) * ((n : ℚ) * Syy - Sy * Sy)) := by
    linear_combination cs
  exact le_of_mul_le_mul_left key hn2

theorem pearsonDen2_pos (xs ys : List ℚ) (h : xs.length = ys.length)
    (hne : pearsonDen2 xs ys ≠ 0) : 0 < pearsonDen2 xs ys :=
  lt_of_le_of_ne (pearsonDen2_nonneg xs ys h) (Ne.symm hne)

/-- The source checks `Math.sqrt(pearsonDen2) === 0`; over the reals this is
the same as checking that the radicand is zero, because the radicand is
nonnegative. -/
theorem pearson_sqrt_eq_zero_iff (xs ys : List ℚ) (h : xs.length = ys.length) :
    Real.sqrt ((pearsonDen2 xs ys : ℚ) : ℝ) = 0 ↔ pearsonDen2 xs ys = 0 := by
  rw [Real.sqrt_eq_zero (by exact_mod_cast pearsonDen2_nonneg xs ys h)]
  exact_mod_cast Iff.rfl

/-- Claim C2: `calculateCorrelation(x, y)` returns null exactly when the two
input lists have different lengths, when they are empty, or when the Pearson
denominator `sqrt((n·Σx² − (Σx)²)·(n·Σy² − (Σy)²))` is exactly zero
(equivalently, its nonnegative radicand `pearsonDen2` is zero); for every
other input it returns a value `r` with `-1 ≤ r ≤ 1`. -/
theorem claim_C2_calculateCorrelation (xs ys : List ℚ) :
    (calculateCorrelation xs ys = none ↔
      xs.length ≠ ys.length ∨ xs.length = 0 ∨ pearsonDen2 xs ys = 0) ∧
    (∀ r : ℝ, calculateCorrelation xs ys = some r → -1 ≤ r ∧ r ≤ 1) := by
  constructor
  · rw [calculateCorrelation]
    by_cases h1 : xs.length ≠ ys.length ∨ xs.length = 0
    · rw [if_pos h1]
      simp only [true_iff]
      tauto
    · rw [if_neg h1]
      by_cases h2 : pearsonDen2 xs ys = 0
      · rw [if_pos h2]
        simp only [true_iff]
        exact Or.inr (Or.inr h2)
      · rw [if_neg h2]
        simp only [reduceCtorEq, false_iff]
        tauto
  · intro r hr
    rw [calculateCorrelation] at hr
    by_cases h1 : xs.length ≠ ys.length ∨ xs.length = 0
    · rw [if_pos h1] at hr; cases hr
    · rw [if_neg h1] at hr
      by_cases h2 : pearsonDen2 xs ys = 0
      · rw [if_pos h2] at hr; cases hr
      · rw [if_neg h2] at hr
        have hlen : xs.length = ys.length := by
          by_contra hc
          exact h1 (Or.inl hc)
        have hpos : (0 : ℝ) < ((pearsonDen2 xs ys : ℚ) : ℝ) := by
          exact_mod_cast pearsonDen2_pos xs ys hlen h2
        have hsq : (0 : ℝ) < Real.sqrt ((pearsonDen2 xs ys : ℚ) : ℝ) :=
          Real.sqrt_pos.2 hpos
        have hle : ((pearsonNum xs ys : ℚ) : ℝ) ^ 2 ≤ ((pearsonDen2 xs ys : ℚ) : ℝ) := by
          exact_mod_cast pearsonNum_sq_le xs ys hlen
        have habs : |((pearsonNum xs ys : ℚ) : ℝ)| ≤ Real.sqrt ((pearsonDen2 xs ys : ℚ) : ℝ) := by
          have hmono := Real.sqrt_le_sqrt hle
          rwa [Real.sqrt_sq_eq_abs] at hmono
        have hdiv : |((pearsonNum xs ys : ℚ) : ℝ) / Real.sqrt ((pearsonDen2 xs ys : ℚ) : ℝ)| ≤ 1 := by
          rw [abs_div, abs_of_nonneg (Real.sqrt_nonneg _)]
          exact (div_le_one hsq).2 habs
        have hr' : r = ((pearsonNum xs ys : ℚ) : ℝ) / Real.sqrt ((pearsonDen2 xs ys : ℚ) : ℝ) :=
          (Option.some_injective ℝ hr).symm
        rw [hr']
        exact abs_le.1 hdiv

theorem claim_C2_witness :
    calculateCorrelation [(0 : ℚ), 1] [(0 : ℚ), 1] = some 1
      ∧ (-1 ≤ (1 : ℝ) ∧ (1 : ℝ) ≤ 1) := by
  have h2 : pearsonDen2 [(0 : ℚ), 1] [(0 : ℚ), 1] = 1 := by
    norm_num [pearsonDen2, pSum, pSum2, Finset.sum_range_succ]
  have h3 : pearsonNum [(0 : ℚ), 1] [(0 : ℚ), 1] = 1 := by
    norm_num [pearsonNum, pSum, pSumXY, Finset.sum_range_succ]
  have heval : calculateCorrelation [(0 : ℚ), 1] [(0 : ℚ), 1] = some 1 := by
    rw [calculateCorrelation, if_neg (by norm_num), h2, h3, if_neg one_ne_zero]
    norm_num [Real.sqrt_one]
  exact ⟨heval, (claim_C2_calculateCorrelation [(0 : ℚ), 1] [(0 : ℚ), 1]).2 1 heval⟩

/-- Claim C10: in aggregated mode the vote-share computation never reads the
`party` parameter — two requests identical except for `party` produce the
same aggregated output. -/
theorem claim_C10_aggregate_ignores_party (db : DB) (year : Nat) (p1 p2 : Option Nat)
    (state : Option Nat) (gender : Option String) (district constituency : Option Nat) :
    getVoteShare db year p1 true state gender district constituency
      = getVoteShare db year p2 true state gender district constituency := rfl

/-- Claim C9: for every metric accepting a `district` filter, a district id
resolving to no constituency row is silently dropped: the result equals the
result with no district filter. -/
theorem claim_C9_unresolved_district_dropped (db : DB) (did : Nat)
    (hd : db.constituencies.filter (fun c => decide (c.id = did)) = [])
    (year : Nat) (state party : Option Nat) (gender : Option String)
    (constituency : Option Nat) (yearOpt stateOpt : Option Nat) (limit : Nat) :
    getSeatShare db year state party gender (some did) constituency
        = getSeatShare db year state party gender none constituency
      ∧ getVoteShareAgg db year state gender (some did) constituency
        = getVoteShareAgg db year state gender none constituency
      ∧ getGenderTrend db party state gender (some did)
        = getGenderTrend db party state gender none
      ∧ getMargins db yearOpt stateOpt limit (some did) constituency
        = getMargins db yearOpt stateOpt limit none constituency
      ∧ getKPIs db year state gender (some did) constituency
        = getKPIs db year state gender none constituency
      ∧ getConstituenciesList db state (some did)
        = getConstituenciesList db state none := by
  have hres : resolveDistrict db (some did) = none := by
    rw [resolveDistrict, Option.some_bind, hd]
    rfl
  refine ⟨?_, ?_, ?_, ?_, ?_, ?_⟩
  · show getSeatShareCore db year state party gender (resolveDistrict db (some did)) constituency
      = getSeatShareCore db year state party gender (resolveDistrict db none) constituency
    rw [hres]; rfl
  · show getVoteShareAggCore db year state gender (resolveDistrict db (some did)) constituency
      = getVoteShareAggCore db year state gender (resolveDistrict db none) constituency
    rw [hres]; rfl
  · show getGenderTrendCore db party state gender (resolveDistrict db (some did))
      = getGenderTrendCore db party state gender (resolveDistrict db none)
    rw [hres]; rfl
  · show getMarginsCore db yearOpt stateOpt limit (resolveDistrict db (some did)) constituency
      = getMarginsCore db yearOpt stateOpt limit (resolveDistrict db none) constituency
    rw [hres]; rfl
  · show getKPIsCore db year state gender (resolveDistrict db (some did)) constituency
      = getKPIsCore db year state gender (resolveDistrict db none) constituency
    rw [hres]; rfl
  · show getConstituenciesListCore db state (resolveDistrict db (some did))
      = getConstituenciesListCore db state (resolveDistrict db none)
    rw [hres]; rfl

/-- The empty store. -/
def emptyDB : DB := ⟨[], [], [], [], [], []⟩

theorem claim_C9_witness :
    getSeatShare emptyDB 2000 none none none (some 5) none
      = getSeatShare emptyDB 2000 none none none none none :=
  (claim_C9_unresolved_district_dropped emptyDB 5 rfl 2000 none none none none
    none none 10).1

/-- Every row of the per-party aggregated vote-share join projects to a row
of the overall-total join (dropping the party component). -/
theorem sJoin_proj_vJoin (db : DB) (t : SRow) (ht : t ∈ sJoin db) :
    (⟨t.r, t.e, t.c, t.cand⟩ : VRow) ∈ vJoin db := by
  rw [sJoin] at ht
  simp only [sBlock, List.mem_flatMap, List.mem_map] at ht
  obtain ⟨r, hr, e, he, p, hp, c, hc, cand, hcand, heq⟩ := ht
  subst heq
  rw [vJoin]
  simp only [vBlock, List.mem_flatMap, List.mem_map]
  exact ⟨r, hr, e, he, c, hc, cand, hcand, rfl⟩

/-- Claim C6: an aggregated vote-share request whose filter set matches zero
rows gets denominator 1 (no division by zero) and returns the empty array. -/
theorem claim_C6_zero_rows_vote_share (db : DB) (year : Nat) (state : Option Nat)
    (gender : Option String) (district constituency : Option Nat)
    (h : aggTotalRows db year state (resolveDistrict db district) constituency gender = []) :
    aggTotalVotes db year state (resolveDistrict db district) constituency gender = 1
      ∧ getVoteShareAgg db year state gender district constituency = [] := by
  have hp : aggPartyRows db year state (resolveDistrict db district) constituency gender = [] := by
    rw [aggPartyRows, List.filter_eq_nil_iff]
    intro t ht hw
    have hmem := sJoin_proj_vJoin db t ht
    rw [aggTotalRows] at h
    exact List.filter_eq_nil_iff.1 h ⟨t.r, t.e, t.c, t.cand⟩ hmem hw
  constructor
  · rw [aggTotalVotes, h]
    rfl
  · rw [getVoteShareAgg, getVoteShareAggCore, hp]
    rfl

theorem claim_C6_witness :
    aggTotalVotes emptyDB 2000 none (resolveDistrict emptyDB none) none none = 1
      ∧ getVoteShareAgg emptyDB 2000 none none none none = [] :=
  claim_C6_zero_rows_vote_share emptyDB 2000 none none none none rfl

theorem group_length_pos {α κ : Type} [DecidableEq κ] (key : α → κ) (l : List α)
    {k : κ} (hk : k ∈ firstDedup (l.map key)) :
    0 < (l.filter (fun a => decide (key a = k))).length := by
  rcases List.mem_map.1 (mem_firstDedup.1 hk) with ⟨a, ha, hka⟩
  have : a ∈ l.filter (fun a => decide (key a = k)) :=
    List.mem_filter.2 ⟨ha, decide_eq_true hka⟩
  exact List.length_pos.2 (List.ne_nil_of_mem this)

theorem sum_map_cast_mul_div {α : Type} (l : List α) (f : α → ℕ) (T : ℚ) :
    (l.map (fun a => ((f a : ℚ) * 100) / T)).sum = (((l.map f).sum : ℕ) : ℚ) * 100 / T := by
  induction l with
  | nil => simp
  | cons a l ih =>
    simp only [List.map_cons, List.sum_cons, ih]
    push_cast
    ring

theorem mem_genderCounted {db : DB} {party state : Option Nat} {gender : Option String}
    {dn : Option String} {row : GenderCountRow}
    (h : row ∈ genderCounted db party state gender dn) : 0 < row.count := by
  rw [genderCounted] at h
  have h2 := (List.perm_insertionSort
    (lex2 (fun x : GenderCountRow => x.year) (fun x => x.gender) onAsc osAsc) _).mem_iff.1 h
  rcases List.mem_map.1 h2 with ⟨g, hg, hrow⟩
  rw [groupBy] at hg
  rcases List.mem_map.1 hg with ⟨k, hk, hgk⟩
  have hpos := group_length_pos (fun t : GRow => (t.e.year, t.cand.sex))
    (genderBase db party state gender dn) hk
  rw [← hrow, ← hgk]
  exact hpos

/-- Claim C5: for every year present in a gender-trend result, under any
filter combination, the percentages of the rows of that year sum to exactly
100 (the denominator is the sum of the returned counts of that year). -/
theorem claim_C5_gender_trend_year_closure (db : DB) (party state : Option Nat)
    (gender : Option String) (district : Option Nat) (y : Option Nat)
    (hy : ∃ row ∈ getGenderTrend db party state gender district, row.year = y) :
    (((getGenderTrend db party state gender district).filter
        (fun row => decide (row.year = y))).map (fun row => row.percentage)).sum = 100 := by
  rw [getGenderTrend, getGenderTrendCore] at hy ⊢
  set dn := resolveDistrict db district with hdn
  set C := genderCounted db party state gender dn with hC
  -- the year y is inhabited in the counted rows, with a positive count
  obtain ⟨row, hrow, hyear⟩ := hy
  rcases List.mem_map.1 hrow with ⟨row0, hrow0, hattach⟩
  have hyear0 : row0.year = y := by
    have : (GenderTrendRow.mk row0.year row0.gender row0.count _).year = y := hattach ▸ hyear
    exact this
  have hcnt : 0 < row0.count := mem_genderCounted hrow0
  have hT : 0 < yearTotal C y := by
    have hmemf : row0 ∈ C.filter (fun r => decide (r.year = y)) :=
      List.mem_filter.2 ⟨hrow0, decide_eq_true hyear0⟩
    have hmemc : row0.count ∈ (C.filter (fun r => decide (r.year = y))).map
        (fun r => r.count) := List.mem_map_of_mem _ hmemf
    have hle := List.le_sum_of_mem hmemc
    rw [yearTotal]
    exact lt_of_lt_of_le hcnt hle
  -- rewrite the filtered mapped sum over the counted rows
  rw [List.filter_map, List.map_map]
  simp only [Function.comp_def]
  have hcong : ∀ r ∈ C.filter (fun row : GenderCountRow => decide (row.year = y)),
      (if 0 < yearTotal C r.year
       then ((r.count : ℚ) * 100) / (yearTotal C r.year) else 0)
      = ((r.count : ℚ) * 100) / ((yearTotal C y : ℕ) : ℚ) := by
    intro r hr
    have hry : r.year = y := of_decide_eq_true (List.mem_filter.1 hr).2
    rw [hry, if_pos hT]
  rw [List.map_congr_left hcong, sum_map_cast_mul_div]
  rw [show ((C.filter (fun row : GenderCountRow => decide (row.year = y))).map
      (fun r => r.count)).sum = yearTotal C y from rfl]
  have hne : ((yearTotal C y : ℕ) : ℚ) ≠ 0 :=
    Nat.cast_ne_zero.2 (Nat.pos_iff_ne_zero.1 hT)
  field_simp

/-! A small concrete store with one valid year (1003 result rows for year
2000, satisfying the ≥ 1000 threshold).  The 1000 filler rows reference a
nonexistent constituency/candidate/party, so they count toward the year's
row total but drop out of every joined query. -/

def fillerResult : ResultRow := ⟨1, 999, 999, 999, none, none, none, none, none⟩

def exW1 : ResultRow := ⟨1, 1, 1, 1, some 1, some 0, none, none, some 1⟩

def exW2 : ResultRow := ⟨1, 2, 2, 1, some 1, some 0, none, none, some 2⟩

def exRup : ResultRow := ⟨1, 1, 2, 1, some 2, none, none, none, none⟩

def exDB : DB :=
  ⟨[⟨1, "S"⟩], [⟨1, "P", none⟩],
   [⟨1, 1, "C", 1, none⟩, ⟨2, 1, "D", 2, none⟩],
   [⟨1, some 2000⟩],
   [⟨1, "A", some "M", none⟩, ⟨2, "B", some "F", none⟩],
   exW1 :: exW2 :: exRup :: List.replicate 1000 fillerResult⟩

set_option maxRecDepth 100000 in
theorem claim_C5_witness :
    (((getGenderTrend exDB none none none none).filter
        (fun row => decide (row.year = some 2000))).map (fun row => row.percentage)).sum
      = 100 :=
  claim_C5_gender_trend_year_closure exDB none none none none (some 2000) (by decide)

theorem sorted_insertionSort_of {α : Type} (r : α → α → Prop) [DecidableRel r]
    (htot : ∀ a b, r a b ∨ r b a) (htr : ∀ a b c, r a b → r b c → r a c) (l : List α) :
    (l.insertionSort r).Sorted r :=
  @List.sorted_insertionSort α r _ ⟨htot⟩ ⟨htr⟩ l

theorem filter_eq_of_keys_nodup {α κ : Type} [DecidableEq κ] {l : List α} {key : α → κ}
    (h : (l.map key).Nodup) (k : κ) :
    l.filter (fun a => decide (key a = k)) = []
      ∨ ∃ b ∈ l, key b = k ∧ l.filter (fun a => decide (key a = k)) = [b] := by
  induction l with
  | nil => exact Or.inl rfl
  | cons a l ih =>
    rw [List.map_cons, List.nodup_cons] at h
    by_cases hk : key a = k
    · right
      refine ⟨a, List.mem_cons_self _ _, hk, ?_⟩
      rw [List.filter_cons, if_pos (decide_eq_true hk)]
      have : l.filter (fun a => decide (key a = k)) = [] := by
        rw [List.filter_eq_nil_iff]
        intro b hb hdec
        have hkb : key b = k := of_decide_eq_true hdec
        exact h.1 (hk ▸ hkb ▸ List.mem_map_of_mem key hb)
      rw [this]
    · rw [List.filter_cons, if_neg (by simp [hk])]
      rcases ih h.2 with h1 | ⟨b, hb, hkb, h2⟩
      · exact Or.inl h1
      · exact Or.inr ⟨b, List.mem_cons_of_mem _ hb, hkb, h2⟩

theorem seatCounts_keys (db : DB) (y : Nat) :
    (seatCountsForYear db y).map Prod.fst
      = firstDedup ((seatChangeBase db y).map (fun t => t.p.name)) := by
  simp only [seatCountsForYear, groupBy, List.map_map]
  show List.map id _ = _
  exact List.map_id _

theorem seatCounts_keys_nodup (db : DB) (y : Nat) :
    ((seatCountsForYear db y).map Prod.fst).Nodup := by
  rw [seatCounts_keys]
  exact nodup_firstDedup _

theorem mem_seatCounts_keys (db : DB) (y : Nat) (n : String) :
    n ∈ (seatCountsForYear db y).map Prod.fst ↔ n ∈ winnerPartyNames db y := by
  rw [seatCounts_keys, mem_firstDedup, winnerPartyNames]

theorem scPart1_map_party {c1 c2 : List (String × Nat)}
    (hnd2 : (c2.map Prod.fst).Nodup) :
    (scPart1 c1 c2).map (fun r => r.party) = c1.map Prod.fst := by
  induction c1 with
  | nil => rfl
  | cons a c1 ih =>
    rw [scPart1, List.flatMap_cons, List.map_append]
    rw [scPart1] at ih
    rw [ih, List.map_cons]
    rcases filter_eq_of_keys_nodup hnd2 a.1 with h | ⟨b, _, _, h⟩
    · simp only [h, if_pos]
      rfl
    · simp only [h]
      rw [if_neg (by simp)]
      rfl

theorem scPart2_map_party (c1 c2 : List (String × Nat)) :
    (scPart2 c1 c2).map (fun r => r.party)
      = (c2.filter (fun b => c1.all (fun a => decide (a.1 ≠ b.1)))).map Prod.fst := by
  rw [scPart2, List.map_map]
  rfl

theorem scPart1_rows {c1 c2 : List (String × Nat)}
    (hnd2 : (c2.map Prod.fst).Nodup) :
    ∀ row ∈ scPart1 c1 c2, row.party ∈ c1.map Prod.fst
      ∧ row.change = (row.year2_seats : Int) - (row.year1_seats : Int)
      ∧ (row.party ∉ c2.map Prod.fst → row.year2_seats = 0) := by
  intro row hrow
  rw [scPart1, List.mem_flatMap] at hrow
  obtain ⟨a, ha, hmem⟩ := hrow
  rcases filter_eq_of_keys_nodup hnd2 a.1 with h | ⟨b, hb, hkb, h⟩
  · simp only [h, if_pos, List.mem_singleton] at hmem
    subst hmem
    refine ⟨List.mem_map_of_mem Prod.fst ha, by simp, fun _ => rfl⟩
  · simp only [h] at hmem
    rw [if_neg (by simp), List.map_cons, List.map_nil, List.mem_singleton] at hmem
    subst hmem
    refine ⟨List.mem_map_of_mem Prod.fst ha, by simp, ?_⟩
    intro hnot
    exact absurd (hkb ▸ List.mem_map_of_mem Prod.fst hb) hnot

theorem scPart2_rows (c1 c2 : List (String × Nat)) :
    ∀ row ∈ scPart2 c1 c2, row.party ∈ c2.map Prod.fst
      ∧ row.party ∉ c1.map Prod.fst
      ∧ row.year1_seats = 0
      ∧ row.change = (row.year2_seats : Int) - (row.year1_seats : Int) := by
  intro row hrow
  rw [scPart2, List.mem_map] at hrow
  obtain ⟨b, hb, hrow⟩ := hrow
  rw [List.mem_filter] at hb
  have hanti : ∀ a ∈ c1, a.1 ≠ b.1 := by
    intro a ha
    exact of_decide_eq_true (List.all_eq_true.1 hb.2 a ha)
  subst hrow
  refine ⟨List.mem_map_of_mem Prod.fst hb.1, ?_, rfl, by simp⟩
  intro hmem
  rcases List.mem_map.1 hmem with ⟨a, ha, hfst⟩
  exact hanti a ha hfst

theorem scParts_map_party_nodup {c1 c2 : List (String × Nat)}
    (hnd1 : (c1.map Prod.fst).Nodup) (hnd2 : (c2.map Prod.fst).Nodup) :
    ((scPart1 c1 c2 ++ scPart2 c1 c2).map (fun r => r.party)).Nodup := by
  rw [List.map_append, List.nodup_append]
  refine ⟨scPart1_map_party hnd2 ▸ hnd1, ?_, ?_⟩
  · rw [scPart2_map_party]
    exact hnd2.sublist (List.Sublist.map Prod.fst (List.filter_sublist c2))
  · intro n hn1 hn2
    rw [scPart1_map_party hnd2] at hn1
    rw [scPart2_map_party] at hn2
    rcases List.mem_map.1 hn2 with ⟨b, hb, hfst⟩
    rw [List.mem_filter] at hb
    have hanti : ∀ a ∈ c1, a.1 ≠ b.1 := by
      intro a ha
      exact of_decide_eq_true (List.all_eq_true.1 hb.2 a ha)
    rcases List.mem_map.1 hn1 with ⟨a, ha, hfa⟩
    exact hanti a ha (hfa.trans hfst.symm)

/-- Claim C4: for any two years, the seat-changes result has exactly one row
per party winning at least one seat in either year (no duplicate party rows,
and the party set is exactly the union), absent parties contribute 0 on their
side, `change = year2_seats - year1_seats` on every row, and rows are ordered
descending by `change`. -/
theorem claim_C4_seat_changes (db : DB) (y1 y2 : Nat) :
    ((getSeatChanges db y1 y2).map (fun r => r.party)).Nodup
    ∧ (∀ n : String, n ∈ (getSeatChanges db y1 y2).map (fun r => r.party) ↔
        (n ∈ winnerPartyNames db y1 ∨ n ∈ winnerPartyNames db y2))
    ∧ (∀ row ∈ getSeatChanges db y1 y2,
        row.change = (row.year2_seats : Int) - (row.year1_seats : Int)
        ∧ (row.party ∉ winnerPartyNames db y1 → row.year1_seats = 0)
        ∧ (row.party ∉ winnerPartyNames db y2 → row.year2_seats = 0))
    ∧ (getSeatChanges db y1 y2).Sorted (fun a b => b.change ≤ a.change) := by
  have hnd1 := seatCounts_keys_nodup db y1
  have hnd2 := seatCounts_keys_nodup db y2
  set c1 := seatCountsForYear db y1 with hc1
  set c2 := seatCountsForYear db y2 with hc2
  have hperm : List.Perm (getSeatChanges db y1 y2) ((scPart1 c1 c2 ++ scPart2 c1 c2).dedup) :=
    List.perm_insertionSort _ _
  have hsub : List.Sublist ((scPart1 c1 c2 ++ scPart2 c1 c2).dedup) (scPart1 c1 c2 ++ scPart2 c1 c2) :=
    List.dedup_sublist _
  have hmem_out : ∀ row, row ∈ getSeatChanges db y1 y2 ↔
      row ∈ scPart1 c1 c2 ++ scPart2 c1 c2 := by
    intro row
    rw [hperm.mem_iff, List.mem_dedup]
  refine ⟨?_, ?_, ?_, ?_⟩
  · refine ((hperm.map (fun r => r.party)).nodup_iff).2 ?_
    exact (scParts_map_party_nodup hnd1 hnd2).sublist (hsub.map (fun r => r.party))
  · intro n
    rw [(hperm.map (fun r => r.party)).mem_iff]
    constructor
    · intro hn
      rcases List.mem_map.1 hn with ⟨row, hrow, hpn⟩
      rw [List.mem_dedup, List.mem_append] at hrow
      rcases hrow with h | h
      · have := (scPart1_rows hnd2 row h).1
        exact Or.inl ((mem_seatCounts_keys db y1 n).1 (hpn ▸ this))
      · have := (scPart2_rows c1 c2 row h).1
        exact Or.inr ((mem_seatCounts_keys db y2 n).1 (hpn ▸ this))
    · intro hn
      have hgoal : n ∈ (scPart1 c1 c2).map (fun r => r.party)
          ∨ n ∈ (scPart2 c1 c2).map (fun r => r.party) → n ∈ ((scPart1 c1 c2 ++ scPart2 c1 c2).dedup).map (fun r => r.party) := by
        intro h
        rcases h with h | h <;> rcases List.mem_map.1 h with ⟨row, hrow, hpn⟩
        · exact hpn ▸ List.mem_map_of_mem _ (List.mem_dedup.2 (List.mem_append_left _ hrow))
        · exact hpn ▸ List.mem_map_of_mem _ (List.mem_dedup.2 (List.mem_append_right _ hrow))
      refine hgoal ?_
      rcases hn with hn | hn
      · exact Or.inl (by
          rw [scPart1_map_party hnd2]
          exact (mem_seatCounts_keys db y1 n).2 hn)
      · by_cases hn1 : n ∈ c1.map Prod.fst
        · exact Or.inl (by rw [scPart1_map_party hnd2]; exact hn1)
        · refine Or.inr ?_
          rw [scPart2_map_party]
          have hn2 : n ∈ c2.map Prod.fst := (mem_seatCounts_keys db y2 n).2 hn
          rcases List.mem_map.1 hn2 with ⟨b, hb, hfst⟩
          refine List.mem_map.2 ⟨b, List.mem_filter.2 ⟨hb, ?_⟩, hfst⟩
          rw [List.all_eq_true]
          intro a ha
          refine decide_eq_true ?_
          intro he
          exact hn1 (List.mem_map.2 ⟨a, ha, he.trans hfst⟩)
  · intro row hrow
    rw [hmem_out row, List.mem_append] at hrow
    rcases hrow with h | h
    · obtain ⟨hp1, hch, hz2⟩ := scPart1_rows hnd2 row h
      refine ⟨hch, ?_, ?_⟩
      · intro hnot
        exact absurd ((mem_seatCounts_keys db y1 row.party).1 hp1) hnot
      · intro hnot
        exact hz2 (fun hmem => hnot ((mem_seatCounts_keys db y2 row.party).1 hmem))
    · obtain ⟨hp2, hnp1, hz1, hch⟩ := scPart2_rows c1 c2 row h
      exact ⟨hch, fun _ => hz1, fun hnot =>
        absurd ((mem_seatCounts_keys db y2 row.party).1 hp2) hnot⟩
  · exact sorted_insertionSort_of (fun a b : SeatChangeRow => b.change ≤ a.change)
      (fun a b => Int.le_total b.change a.change)
      (fun a b c h1 h2 => le_trans h2 h1) ((scPart1 c1 c2 ++ scPart2 c1 c2).dedup)

set_option maxRecDepth 100000 in
theorem claim_C4_witness :
    (⟨"P", 2, 2, 0⟩ : SeatChangeRow) ∈ getSeatChanges exDB 2000 2000
      ∧ (⟨"P", 2, 2, 0⟩ : SeatChangeRow).change
          = ((⟨"P", 2, 2, 0⟩ : SeatChangeRow).year2_seats : Int)
            - ((⟨"P", 2, 2, 0⟩ : SeatChangeRow).year1_seats : Int) := by
  have hmem : (⟨"P", 2, 2, 0⟩ : SeatChangeRow) ∈ getSeatChanges exDB 2000 2000 := by decide
  exact ⟨hmem, ((claim_C4_seat_changes exDB 2000 2000).2.2.1 _ hmem).1⟩

theorem oqAsc_total : ∀ a b : Option ℚ, oqAsc a b ∨ oqAsc b a
  | none, _ => Or.inl trivial
  | some _, none => Or.inr trivial
  | some x, some y => le_total x y

theorem oqAsc_trans : ∀ a b c : Option ℚ, oqAsc a b → oqAsc b c → oqAsc a c
  | none, _, _, _, _ => trivial
  | some _, none, _, h, _ => absurd h id
  | some _, some _, none, _, h => absurd h id
  | some _, some _, some _, h1, h2 => le_trans (α := ℚ) h1 h2

theorem sorted_marginPipe (l : List MarginRow) (n : Nat) :
    (((l.insertionSort marginOrd).take n)).Sorted marginOrd := by
  have h := sorted_insertionSort_of marginOrd
    (fun a b => oqAsc_total a.margin_percentage b.margin_percentage)
    (fun a b c h1 h2 => oqAsc_trans _ _ _ h1 h2) l
  exact List.Pairwise.sublist (List.take_sublist _ _) h

theorem mem_marginPipe {φ : MRow → Bool} {row : MarginRow} {n : Nat} {db : DB}
    (h : row ∈ ((((mJoin db).filter φ).map marginRowOf).insertionSort marginOrd).take n) :
    ∃ t, t ∈ mJoin db ∧ φ t = true ∧ row = marginRowOf t := by
  have h1 : row ∈ (((mJoin db).filter φ).map marginRowOf).insertionSort marginOrd :=
    (List.take_sublist _ _).subset h
  have h2 := (List.perm_insertionSort marginOrd _).mem_iff.1 h1
  rcases List.mem_map.1 h2 with ⟨t, ht, heq⟩
  rw [List.mem_filter] at ht
  exact ⟨t, ht.1, ht.2, heq.symm⟩

theorem mem_mJoin {db : DB} {t : MRow} (ht : t ∈ mJoin db) :
    t.r1 ∈ db.results ∧ t.r2 ∈ db.results
      ∧ t.r1.election_id = t.r2.election_id
      ∧ t.r1.constituency_id = t.r2.constituency_id := by
  rw [mJoin] at ht
  simp only [List.mem_flatMap, List.mem_map, List.mem_filter, Bool.and_eq_true,
    decide_eq_true_eq] at ht
  obtain ⟨r1, hr1, e, _, c, _, s, _, p1, _, cand1, _, r2, ⟨hr2, hcid, heid⟩,
    p2, _, cand2, _, heq⟩ := ht
  subst heq
  exact ⟨hr1, hr2, heid, hcid⟩

/-- Claim C8: margins and closest-contests rows are ordered non-decreasing in
`margin_percentage` (`NULL` ordered first, as SQLite does in ascending
order), every row arises from a `position = 1` winner row and a
`position = 2` runner-up row of the same `(election_id, constituency_id)`
carrying the two vote counts, and `margin` is `winner_votes - runner_up_votes`
(`NULL`-propagating). -/
theorem claim_C8_margins_ordering (db : DB) (year state : Option Nat) (limit : Nat)
    (district constituency : Option Nat) :
    (getMargins db year state limit district constituency).Sorted marginOrd
    ∧ (getClosestContests db year).Sorted marginOrd
    ∧ (∀ row ∈ getMargins db year state limit district constituency,
        (∃ r1 ∈ db.results, ∃ r2 ∈ db.results,
          r1.position = some 1 ∧ r2.position = some 2
          ∧ r1.election_id = r2.election_id ∧ r1.constituency_id = r2.constituency_id
          ∧ row.winner_votes = r1.votes ∧ row.runner_up_votes = r2.votes)
        ∧ row.margin = optSub row.winner_votes row.runner_up_votes)
    ∧ (∀ row ∈ getClosestContests db year,
        (∃ r1 ∈ db.results, ∃ r2 ∈ db.results,
          r1.position = some 1 ∧ r2.position = some 2
          ∧ r1.election_id = r2.election_id ∧ r1.constituency_id = r2.constituency_id
          ∧ row.winner_votes = r1.votes ∧ row.runner_up_votes = r2.votes)
        ∧ row.margin = optSub row.winner_votes row.runner_up_votes) := by
  refine ⟨sorted_marginPipe _ _, sorted_marginPipe _ _, ?_, ?_⟩
  · intro row hrow
    obtain ⟨t, ht, hφ, heq⟩ := mem_marginPipe hrow
    simp only [Bool.and_eq_true, decide_eq_true_eq] at hφ
    obtain ⟨⟨⟨⟨⟨⟨hp1, hp2⟩, _⟩, _⟩, _⟩, _⟩, _⟩ := hφ
    obtain ⟨hr1, hr2, heid, hcid⟩ := mem_mJoin ht
    subst heq
    exact ⟨⟨t.r1, hr1, t.r2, hr2, hp1, hp2, heid, hcid, rfl, rfl⟩, rfl⟩
  · intro row hrow
    obtain ⟨t, ht, hφ, heq⟩ := mem_marginPipe hrow
    simp only [Bool.and_eq_true, decide_eq_true_eq] at hφ
    obtain ⟨⟨⟨⟨hp1, hp2⟩, _⟩, _⟩, _⟩ := hφ
    obtain ⟨hr1, hr2, heid, hcid⟩ := mem_mJoin ht
    subst heq
    exact ⟨⟨t.r1, hr1, t.r2, hr2, hp1, hp2, heid, hcid, rfl, rfl⟩, rfl⟩

set_option maxRecDepth 100000 in
theorem claim_C8_witness :
    (⟨some 2000, "S", "C", "P", "A", some 0, "P", "B", none, none, some 1⟩ : MarginRow)
        ∈ getMargins exDB none none 10 none none
      ∧ (⟨some 2000, "S", "C", "P", "A", some 0, "P", "B", none, none,
          some 1⟩ : MarginRow).margin
        = optSub (some 0) none := by
  have hmem : (⟨some 2000, "S", "C", "P", "A", some 0, "P", "B", none, none,
      some 1⟩ : MarginRow) ∈ getMargins exDB none none 10 none none := by decide
  exact ⟨hmem,
    ((claim_C8_margins_ordering exDB none none 10 none none).2.2.1 _ hmem).2⟩

theorem flatMap_congr {α β : Type} {l : List α} {f g : α → List β}
    (h : ∀ a ∈ l, f a = g a) : l.flatMap f = l.flatMap g := by
  induction l with
  | nil => rfl
  | cons a l ih =>
    rw [List.flatMap_cons, List.flatMap_cons, h a (List.mem_cons_self _ _),
      ih (fun a ha => h a (List.mem_cons_of_mem _ ha))]

theorem tbl_singleton {α : Type} [DecidableEq α] {l : List α} {idOf : α → Nat}
    (hnd : (l.map idOf).Nodup) {p0 : α} (hp : p0 ∈ l) :
    tbl l idOf (idOf p0) = [p0] := by
  rcases filter_eq_of_keys_nodup hnd (idOf p0) with h | ⟨b, _, _, h⟩
  · have : p0 ∈ l.filter (fun a => decide (idOf a = idOf p0)) :=
      List.mem_filter.2 ⟨hp, by simp⟩
    rw [h] at this
    cases this
  · have hmem : p0 ∈ l.filter (fun a => decide (idOf a = idOf p0)) :=
      List.mem_filter.2 ⟨hp, by simp⟩
    rw [h, List.mem_singleton] at hmem
    rw [tbl, h, hmem]

theorem mem_sBlock_r {db : DB} {r : ResultRow} {t : SRow} (ht : t ∈ sBlock db r) :
    t.r = r := by
  simp only [sBlock, List.mem_flatMap, List.mem_map] at ht
  obtain ⟨e, _, p, _, c, _, cand, _, heq⟩ := ht
  subst heq
  rfl

theorem mem_vBlock_r {db : DB} {r : ResultRow} {t : VRow} (ht : t ∈ vBlock db r) :
    t.r = r := by
  simp only [vBlock, List.mem_flatMap, List.mem_map] at ht
  obtain ⟨e, _, c, _, cand, _, heq⟩ := ht
  subst heq
  rfl

theorem sBlock_map_proj {db : DB} {r : ResultRow} {p0 : Party}
    (hsing : tbl db.parties (fun p => p.id) r.party_id = [p0]) :
    (sBlock db r).map (fun t : SRow => (⟨t.r, t.e, t.c, t.cand⟩ : VRow))
      = vBlock db r := by
  rw [sBlock, vBlock, hsing, List.map_flatMap]
  apply flatMap_congr
  intro e _
  rw [List.flatMap_singleton, List.map_flatMap]
  apply flatMap_congr
  intro c _
  rw [List.map_map]
  rfl

theorem aggRows_map_proj (db : DB) (year : Nat) (state : Option Nat) (dn : Option String)
    (constituency : Option Nat) (gender : Option String)
    (hnd : (db.parties.map (fun p => p.id)).Nodup)
    (hcov : ∀ r ∈ db.results, r.votes.isSome = true → ∃ p ∈ db.parties, p.id = r.party_id) :
    (aggPartyRows db year state dn constituency gender).map
        (fun t : SRow => (⟨t.r, t.e, t.c, t.cand⟩ : VRow))
      = aggTotalRows db year state dn constituency gender := by
  rw [aggPartyRows, aggTotalRows, sJoin, vJoin, List.filter_flatMap, List.filter_flatMap,
    List.map_flatMap]
  apply flatMap_congr
  intro r hr
  by_cases hv : r.votes.isSome = true
  · obtain ⟨p0, hp0, hpid⟩ := hcov r hr hv
    have hsing : tbl db.parties (fun p => p.id) r.party_id = [p0] := by
      have h := tbl_singleton hnd hp0
      rw [hpid] at h
      exact h
    rw [show (fun t : SRow => aggWhere db year state dn constituency gender t.r t.e t.c t.cand)
        = (fun t : VRow => aggWhere db year state dn constituency gender t.r t.e t.c t.cand)
          ∘ (fun t : SRow => (⟨t.r, t.e, t.c, t.cand⟩ : VRow)) from rfl]
    rw [← List.filter_map, sBlock_map_proj hsing]
  · have h5 : (sBlock db r).filter
        (fun t => aggWhere db year state dn constituency gender t.r t.e t.c t.cand) = [] := by
      rw [List.filter_eq_nil_iff]
      intro t ht hw
      simp only [aggWhere, Bool.and_eq_true] at hw
      exact hv (mem_sBlock_r ht ▸ hw.1.1.1.1.2)
    have h4 : (vBlock db r).filter
        (fun t => aggWhere db year state dn constituency gender t.r t.e t.c t.cand) = [] := by
      rw [List.filter_eq_nil_iff]
      intro t ht hw
      simp only [aggWhere, Bool.and_eq_true] at hw
      exact hv (mem_vBlock_r ht ▸ hw.1.1.1.1.2)
    rw [h5, h4]
    rfl

theorem aggParty_total (db : DB) (year : Nat) (state : Option Nat) (dn : Option String)
    (constituency : Option Nat) (gender : Option String)
    (hnd : (db.parties.map (fun p => p.id)).Nodup)
    (hcov : ∀ r ∈ db.results, r.votes.isSome = true → ∃ p ∈ db.parties, p.id = r.party_id) :
    (((((groupBy (fun t : SRow => t.p.name)
        (aggPartyRows db year state dn constituency gender)).map
      (fun g => PVRow.mk g.1 ((g.2.map (fun t => t.r.votes.getD 0)).sum))).insertionSort
      (fun a b : PVRow => b.total_votes ≤ a.total_votes)).map
        (fun pv => pv.total_votes)).sum : Nat)
    = ((aggTotalRows db year state dn constituency gender).map
        (fun t => t.r.votes.getD 0)).sum := by
  set rows := aggPartyRows db year state dn constituency gender with hrows
  have hperm := List.perm_insertionSort (fun a b : PVRow => b.total_votes ≤ a.total_votes)
    ((groupBy (fun t : SRow => t.p.name) rows).map
      (fun g => PVRow.mk g.1 ((g.2.map (fun t => t.r.votes.getD 0)).sum)))
  rw [(hperm.map (fun pv => pv.total_votes)).sum_eq, List.map_map, groupBy, List.map_map]
  have hpart := sum_partition rows (fun t : SRow => t.p.name)
    (fun t => t.r.votes.getD 0) (firstDedup (rows.map (fun t : SRow => t.p.name)))
    (nodup_firstDedup _)
    (fun a ha => mem_firstDedup.2 (List.mem_map_of_mem _ ha))
  calc (List.map ((fun pv : PVRow => pv.total_votes)
          ∘ ((fun g : String × List SRow =>
              PVRow.mk g.1 ((g.2.map (fun t => t.r.votes.getD 0)).sum))
            ∘ fun k => (k, rows.filter (fun a => decide (a.p.name = k)))))
        (firstDedup (rows.map (fun t : SRow => t.p.name)))).sum
      = (List.map (fun k =>
          ((rows.filter (fun a => decide (a.p.name = k))).map
            (fun t => t.r.votes.getD 0)).sum)
        (firstDedup (rows.map (fun t : SRow => t.p.name)))).sum := rfl
    _ = (rows.map (fun t => t.r.votes.getD 0)).sum := hpart
    _ = ((aggTotalRows db year state dn constituency gender).map
          (fun t => t.r.votes.getD 0)).sum := by
        rw [← aggRows_map_proj db year state dn constituency gender hnd hcov, List.map_map]
        rfl

/-- Claim C3 (amended): for aggregated vote share with any filter combination,
assuming referential integrity of party ids (unique ids, and every result row
with non-null votes resolving to a party) and at least one matching row with a
nonzero vote total, the returned `vote_share_pct` values sum to exactly 100.
The code deviates from the claim as frozen when the matching rows' votes sum
to zero: the `|| 1` fallback then makes every share 0 (see the
counterexample). -/
theorem claim_C3_vote_share_sums_to_100 (db : DB) (year : Nat) (state : Option Nat)
    (gender : Option String) (district constituency : Option Nat)
    (hnd : (db.parties.map (fun p => p.id)).Nodup)
    (hcov : ∀ r ∈ db.results, r.votes.isSome = true → ∃ p ∈ db.parties, p.id = r.party_id)
    (hS : ((aggTotalRows db year state (resolveDistrict db district) constituency gender).map
        (fun t => t.r.votes.getD 0)).sum ≠ 0) :
    ((getVoteShareAgg db year state gender district constituency).map
        (fun row => row.vote_share_pct)).sum = 100 := by
  rw [getVoteShareAgg, getVoteShareAggCore]
  set dn := resolveDistrict db district with hdn
  set S : Nat := ((aggTotalRows db year state dn constituency gender).map
    (fun t => t.r.votes.getD 0)).sum with hSdef
  have hT : aggTotalVotes db year state dn constituency gender = S := by
    show (if S = 0 then 1 else S) = S
    rw [if_neg hS]
  rw [hT, List.map_map]
  have hstep : (List.map ((fun row : VoteShareRow => row.vote_share_pct)
      ∘ (fun pv : PVRow => VoteShareRow.mk pv.party pv.total_votes
          ((pv.total_votes * 100 : ℚ) / S)))
      (((groupBy (fun t : SRow => t.p.name)
          (aggPartyRows db year state dn constituency gender)).map
        (fun g => PVRow.mk g.1 ((g.2.map (fun t => t.r.votes.getD 0)).sum))).insertionSort
        (fun a b : PVRow => b.total_votes ≤ a.total_votes))).sum
      = (List.map (fun pv : PVRow => ((pv.total_votes : ℚ) * 100) / (S : ℚ))
        (((groupBy (fun t : SRow => t.p.name)
            (aggPartyRows db year state dn constituency gender)).map
          (fun g => PVRow.mk g.1 ((g.2.map (fun t => t.r.votes.getD 0)).sum))).insertionSort
          (fun a b : PVRow => b.total_votes ≤ a.total_votes))).sum := rfl
  rw [hstep, sum_map_cast_mul_div, aggParty_total db year state dn constituency gender hnd hcov,
    ← hSdef]
  have hne : ((S : ℕ) : ℚ) ≠ 0 := Nat.cast_ne_zero.2 hS
  field_simp


set_option maxRecDepth 100000 in
theorem claim_C3_counterexample :
    aggTotalRows exDB 2000 none none none none ≠ []
      ∧ ¬ (|((getVoteShareAgg exDB 2000 none none none none).map
          (fun row => row.vote_share_pct)).sum - 100| ≤ 1 / 100) := by
  have hcounted : ((groupBy (fun t : SRow => t.p.name)
      (aggPartyRows exDB 2000 none none none none)).map
      (fun g => PVRow.mk g.1 ((g.2.map (fun t => t.r.votes.getD 0)).sum))).insertionSort
      (fun a b : PVRow => b.total_votes ≤ a.total_votes) = [⟨"P", 0⟩] := by decide
  have hT : aggTotalVotes exDB 2000 none none none none = 1 := by decide
  refine ⟨by decide, ?_⟩
  have hagg : ((getVoteShareAgg exDB 2000 none none none none).map
      (fun row => row.vote_share_pct)).sum = 0 := by
    simp only [getVoteShareAgg, getVoteShareAggCore,
      show resolveDistrict exDB none = none from rfl]
    rw [hT, hcounted]
    norm_num
  rw [hagg]
  norm_num

/-- Like `exDB`, but the two winner rows carry 5 votes each, so the matching
rows have a nonzero vote total. -/
def exDB2 : DB :=
  ⟨[⟨1, "S"⟩], [⟨1, "P", none⟩],
   [⟨1, 1, "C", 1, none⟩, ⟨2, 1, "D", 2, none⟩],
   [⟨1, some 2000⟩],
   [⟨1, "A", some "M", none⟩, ⟨2, "B", some "F", none⟩],
   (⟨1, 1, 1, 1, some 1, some 5, none, none, some 1⟩ : ResultRow)
     :: (⟨1, 2, 2, 1, some 1, some 5, none, none, some 2⟩ : ResultRow)
     :: exRup :: List.replicate 1000 fillerResult⟩


theorem cov_of_all {db : DB}
    (h : db.results.all (fun r => !r.votes.isSome
      || db.parties.any (fun p => decide (p.id = r.party_id))) = true) :
    ∀ r ∈ db.results, r.votes.isSome = true → ∃ p ∈ db.parties, p.id = r.party_id := by
  intro r hr hv
  have h2 := List.all_eq_true.1 h r hr
  rw [Bool.or_eq_true, Bool.not_eq_true'] at h2
  rcases h2 with h2 | h2
  · rw [hv] at h2
    cases h2
  · rcases List.any_eq_true.1 h2 with ⟨p, hp, hpid⟩
    exact ⟨p, hp, of_decide_eq_true hpid⟩

set_option maxRecDepth 100000 in
theorem claim_C3_witness :
    ((getVoteShareAgg exDB2 2000 none none none none).map
        (fun row => row.vote_share_pct)).sum = 100 :=
  claim_C3_vote_share_sums_to_100 exDB2 2000 none none none none
    (by decide) (cov_of_all (by decide)) (by decide)

theorem mem_sJoin_party {db : DB} {t : SRow} (ht : t ∈ sJoin db) :
    t.p ∈ db.parties := by
  rw [sJoin] at ht
  simp only [List.mem_flatMap] at ht
  obtain ⟨r, _, hb⟩ := ht
  simp only [sBlock, List.mem_flatMap, List.mem_map] at hb
  obtain ⟨e, _, p, hp, c, _, cand, _, heq⟩ := hb
  subst heq
  exact List.mem_of_mem_filter hp

theorem mem_seatCountRows {db : DB} {year : Nat} {state party : Option Nat}
    {gender : Option String} {dn : Option String} {constituency : Option Nat}
    {sc : SeatCount} (h : sc ∈ seatCountRows db year state party gender dn constituency) :
    sc.party ∈ firstDedup ((seatBaseRows db year state party gender dn constituency).map
        (fun t => t.p.name))
    ∧ sc.seats = ((seatBaseRows db year state party gender dn constituency).filter
        (fun t => decide (t.p.name = sc.party))).length := by
  rw [seatCountRows] at h
  have h2 := (List.perm_insertionSort (fun a b : SeatCount => b.seats ≤ a.seats) _).mem_iff.1 h
  rcases List.mem_map.1 h2 with ⟨g, hg, hsc⟩
  rw [groupBy] at hg
  rcases List.mem_map.1 hg with ⟨k, hk, hgk⟩
  subst hsc
  rw [← hgk]
  exact ⟨hk, rfl⟩

/-- Claim C1 (amended): for a filter combination without a gender filter,
assuming party names are unique and the party's winner rows repeat no
`(constituency_id, candidate_id)` pair, the flattened winner-list length of a
seat-share row equals its `seats` count.  The code deviates from the claim as
frozen when a gender filter is supplied: the seat-count query applies it but
the winner rollup query does not (see the counterexample). -/
theorem claim_C1_seat_winner_consistency (db : DB) (year : Nat)
    (state party : Option Nat) (district constituency : Option Nat)
    (hpn : (db.parties.map (fun p => p.name)).Nodup)
    (row : SeatRow)
    (hrow : row ∈ getSeatShare db year state party none district constituency)
    (hkeys : ((winnerRows db year state (resolveDistrict db district) constituency
        row.party).map (fun t => (t.c.id, t.cand.id))).Nodup) :
    ((row.winnersByDistrict.map (fun g => g.winners.length)).sum) = row.seats := by
  rw [getSeatShare, getSeatShareCore] at hrow
  set dn := resolveDistrict db district with hdn
  rcases List.mem_map.1 hrow with ⟨sc, hsc, hattach⟩
  have hparty : row.party = sc.party := by rw [← hattach]
  have hseats : row.seats = sc.seats := by rw [← hattach]
  have hwbd : row.winnersByDistrict
      = winnersByDistrictOf (winnerRows db year state dn constituency sc.party) := by
    rw [← hattach]
  obtain ⟨hkmem, hcount⟩ := mem_seatCountRows hsc
  rw [hparty] at hkeys
  set k := sc.party with hkdef
  set W := winnerRows db year state dn constituency k with hWdef
  have hdedup : dedupByKeyAux (fun t : SRow => (t.c.id, t.cand.id)) [] W = W :=
    dedupByKeyAux_eq_self _ [] W hkeys (by simp)
  have hsum : ((winnersByDistrictOf W).map (fun g => g.winners.length)).sum = W.length := by
    rw [winnersByDistrictOf]
    rw [hdedup, List.map_map, groupBy, List.map_map]
    simp only [Function.comp_def, List.length_map]
    exact length_partition W (fun t => t.c.name) _ (nodup_firstDedup _)
      (fun a ha => mem_firstDedup.2 (List.mem_map_of_mem _ ha))
  have hlen : W.length = ((sJoin db).filter (fun t =>
      seatWhere db year state dn constituency t && decide (t.p.name = k))).length := by
    rw [hWdef, winnerRows]
    exact (List.perm_insertionSort _ _).length_eq
  have hfeq : (seatBaseRows db year state party none dn constituency).filter
        (fun t => decide (t.p.name = k))
      = (sJoin db).filter (fun t =>
          seatWhere db year state dn constituency t && decide (t.p.name = k)) := by
    rw [seatBaseRows, List.filter_filter]
    apply List.filter_congr
    intro t ht
    cases hnm : decide (t.p.name = k) with
    | false => simp [hnm]
    | true =>
      have hnmp : t.p.name = k := of_decide_eq_true hnm
      simp only [Bool.true_and, Bool.and_true, hnm, matchOptStr]
      cases hp : party with
      | none => simp [matchNat]
      | some pid =>
        rcases List.mem_map.1 (mem_firstDedup.1 hkmem) with ⟨t0, ht0, ht0name⟩
        rw [seatBaseRows, List.mem_filter] at ht0
        have hid0 : matchNat party t0.p.id = true := by
          have := ht0.2
          simp only [Bool.and_eq_true] at this
          exact this.1.2
        rw [hp] at hid0
        have ht0id : t0.p.id = pid := of_decide_eq_true hid0
        have hpeq : t.p = t0.p :=
          List.inj_on_of_nodup_map hpn (mem_sJoin_party ht)
            (mem_sJoin_party ht0.1) (hnmp.trans ht0name.symm)
        have htid : decide (t.p.id = pid) = true :=
          decide_eq_true (hpeq ▸ ht0id)
        simp [matchNat, matchOptStr, htid]
  rw [hwbd, hsum, hlen, ← hfeq, hseats, hcount]

set_option maxRecDepth 100000 in
theorem claim_C1_counterexample :
    ∃ row ∈ getSeatShare exDB 2000 none none (some "F") none none,
      ((row.winnersByDistrict.map (fun g => g.winners.length)).sum) ≠ row.seats := by
  decide

set_option maxRecDepth 100000 in
theorem claim_C1_witness :
    (⟨"P", 2, [⟨"C", ["A"]⟩, ⟨"D", ["B"]⟩]⟩ : SeatRow)
        ∈ getSeatShare exDB 2000 none none none none none
      ∧ (((⟨"P", 2, [⟨"C", ["A"]⟩, ⟨"D", ["B"]⟩]⟩ : SeatRow).winnersByDistrict.map
          (fun g => g.winners.length)).sum)
        = (⟨"P", 2, [⟨"C", ["A"]⟩, ⟨"D", ["B"]⟩]⟩ : SeatRow).seats := by
  have hmem : (⟨"P", 2, [⟨"C", ["A"]⟩, ⟨"D", ["B"]⟩]⟩ : SeatRow)
      ∈ getSeatShare exDB 2000 none none none none none := by decide
  exact ⟨hmem, claim_C1_seat_winner_consistency exDB 2000 none none none none
    (by decide) _ hmem (by decide)⟩

theorem yearOk_false_at {db : DB} {y : Nat} (hy : yearResultCount db y < 1000)
    {e : Election} (he : e.year = some y) : yearOk db e = false := by
  cases hok : yearOk db e with
  | false => rfl
  | true =>
    obtain ⟨y', hy', hc⟩ := yearOk_eq_true hok
    rw [he] at hy'
    cases hy'
    exact absurd hc (by omega)

theorem yearIs_false {db : DB} {y : Nat} (hy : yearResultCount db y < 1000)
    (e : Election) : yearIs db y e = false := by
  rw [yearIs]
  cases hq : decide (e.year = some y) with
  | false => rfl
  | true =>
    rw [yearOk_false_at hy (of_decide_eq_true hq)]
    rfl

theorem year_ne_of_yearOk {db : DB} {y : Nat} (hy : yearResultCount db y < 1000)
    {e : Election} (hok : yearOk db e = true) : e.year ≠ some y := by
  intro he
  rw [yearOk_false_at hy he] at hok
  cases hok

/-- A generic member-shape lemma for the `GROUP BY` / aggregate / `ORDER BY`
pipeline shared by several metrics. -/
theorem mem_groupSort {α κ β : Type} [DecidableEq κ] {key : α → κ} {base : List α}
    {f : κ × List α → β} {r : β → β → Prop} [inst : DecidableRel r] {b : β}
    (hb : b ∈ ((groupBy key base).map f).insertionSort r) :
    ∃ k ∈ firstDedup (base.map key),
      b = f (k, base.filter (fun a => decide (key a = k))) := by
  have h2 := (List.perm_insertionSort r _).mem_iff.1 hb
  rcases List.mem_map.1 h2 with ⟨g, hg, hfb⟩
  rw [groupBy] at hg
  rcases List.mem_map.1 hg with ⟨k, hk, hgk⟩
  exact ⟨k, hk, by rw [← hfb, ← hgk]⟩

/-- A key of a grouped pipeline comes from some base row. -/
theorem exists_base_of_key {α κ : Type} [DecidableEq κ] {key : α → κ} {base : List α}
    {k : κ} (hk : k ∈ firstDedup (base.map key)) : ∃ a ∈ base, key a = k := by
  rcases List.mem_map.1 (mem_firstDedup.1 hk) with ⟨a, ha, hka⟩
  exact ⟨a, ha, hka⟩

theorem seatBase_empty {db : DB} {y : Nat} (hy : yearResultCount db y < 1000)
    (state party : Option Nat) (gender : Option String) (dn : Option String)
    (constituency : Option Nat) :
    seatBaseRows db y state party gender dn constituency = [] := by
  rw [seatBaseRows, List.filter_eq_nil_iff]
  intro t _ hw
  simp only [seatWhere, yearIs_false hy, Bool.false_and] at hw
  exact Bool.noConfusion hw

theorem aggTotalRows_empty {db : DB} {y : Nat} (hy : yearResultCount db y < 1000)
    (state : Option Nat) (dn : Option String) (constituency : Option Nat)
    (gender : Option String) :
    aggTotalRows db y state dn constituency gender = [] := by
  rw [aggTotalRows, List.filter_eq_nil_iff]
  intro t _ hw
  simp only [aggWhere, yearIs_false hy, Bool.false_and] at hw
  exact Bool.noConfusion hw

theorem aggPartyRows_empty {db : DB} {y : Nat} (hy : yearResultCount db y < 1000)
    (state : Option Nat) (dn : Option String) (constituency : Option Nat)
    (gender : Option String) :
    aggPartyRows db y state dn constituency gender = [] := by
  rw [aggPartyRows, List.filter_eq_nil_iff]
  intro t _ hw
  simp only [aggWhere, yearIs_false hy, Bool.false_and] at hw
  exact Bool.noConfusion hw

theorem kpiBase_empty {db : DB} {y : Nat} (hy : yearResultCount db y < 1000)
    (state : Option Nat) (dn : Option String) (constituency : Option Nat)
    (gender : Option String) :
    (vJoin db).filter (kpiWhere db y state dn constituency gender) = [] := by
  rw [List.filter_eq_nil_iff]
  intro t _ hw
  simp only [kpiWhere, yearIs_false hy, Bool.false_and] at hw
  exact Bool.noConfusion hw

theorem turnoutBase_empty {db : DB} {y : Nat} (hy : yearResultCount db y < 1000)
    (state : Option Nat) : turnoutBase db y state = [] := by
  rw [turnoutBase, List.filter_eq_nil_iff]
  intro t _ hw
  simp only [yearIs_false hy, Bool.false_and] at hw
  exact Bool.noConfusion hw

theorem vsStateBase_empty {db : DB} {y : Nat} (hy : yearResultCount db y < 1000)
    (party : Option Nat) : vsStateBase db y party = [] := by
  rw [vsStateBase, List.filter_eq_nil_iff]
  intro t _ hw
  simp only [yearIs_false hy, Bool.false_and] at hw
  exact Bool.noConfusion hw

theorem seatChangeBase_empty {db : DB} {y : Nat} (hy : yearResultCount db y < 1000) :
    seatChangeBase db y = [] := by
  rw [seatChangeBase, List.filter_eq_nil_iff]
  intro t _ hw
  simp only [yearIs_false hy, Bool.false_and] at hw
  exact Bool.noConfusion hw

theorem electionsBase_empty {db : DB} {y : Nat} (hy : yearResultCount db y < 1000)
    (state party : Option Nat) (q : Option String) :
    electionsBase db (some y) state party q = [] := by
  rw [electionsBase, List.filter_eq_nil_iff]
  intro t _ hw
  simp only [Bool.and_eq_true] at hw
  obtain ⟨⟨⟨⟨hok, hmon⟩, _⟩, _⟩, _⟩ := hw
  have he : t.e.year = some y := of_decide_eq_true hmon
  rw [yearOk_false_at hy he] at hok
  exact Bool.noConfusion hok

theorem marginsBase_empty {db : DB} {y : Nat} (hy : yearResultCount db y < 1000)
    (state : Option Nat) (dn : Option String) (constituency : Option Nat) :
    marginsBaseRows db (some y) state dn constituency = [] := by
  rw [marginsBaseRows, List.filter_eq_nil_iff]
  intro t _ hw
  simp only [Bool.and_eq_true] at hw
  obtain ⟨⟨⟨⟨⟨⟨_, _⟩, hok⟩, hmon⟩, _⟩, _⟩, _⟩ := hw
  have he : t.e.year = some y := of_decide_eq_true hmon
  rw [yearOk_false_at hy he] at hok
  exact Bool.noConfusion hok

theorem closestBase_empty {db : DB} {y : Nat} (hy : yearResultCount db y < 1000) :
    closestBase db (some y) = [] := by
  rw [closestBase, List.filter_eq_nil_iff]
  intro t _ hw
  simp only [Bool.and_eq_true] at hw
  obtain ⟨⟨_, hok⟩, hmon⟩ := hw
  have he : t.e.year = some y := of_decide_eq_true hmon
  rw [yearOk_false_at hy he] at hok
  exact Bool.noConfusion hok

/-- Claim C7: a year with fewer than 1000 underlying result rows never appears
in any metric's year dimension (years list, gender trend, women candidates,
national-vs-regional), and supplying it as a year filter to the year-filtered
metrics (elections, seat share, turnout, both vote-share modes, KPIs, margins,
closest contests, seat changes) yields no data attributed to that year. -/
theorem claim_C7_valid_year_threshold (db : DB) (y : Nat)
    (hy : yearResultCount db y < 1000)
    (state party yearOpt district constituency : Option Nat)
    (gender : Option String) (q : Option String) (limit offset y2 : Nat) :
    y ∉ getYears db
    ∧ (∀ row ∈ getGenderTrend db party state gender district, row.year ≠ some y)
    ∧ (∀ row ∈ getWomenCandidates db yearOpt state, row.year ≠ some y)
    ∧ (∀ row ∈ getNationalVsRegional db, row.year ≠ some y)
    ∧ getElections db (some y) state party q limit offset = []
    ∧ getSeatShare db y state party gender district constituency = []
    ∧ getTurnout db y state = []
    ∧ getVoteShareAgg db y state gender district constituency = []
    ∧ getVoteShareByState db y party = []
    ∧ getKPIs db y state gender district constituency = ⟨0, 0, 0⟩
    ∧ getMargins db (some y) state limit district constituency = []
    ∧ getClosestContests db (some y) = []
    ∧ (∀ row ∈ getSeatChanges db y y2, row.year1_seats = 0)
    ∧ (∀ row ∈ getSeatChanges db y2 y, row.year2_seats = 0) := by
  refine ⟨?_, ?_, ?_, ?_, ?_, ?_, ?_, ?_, ?_, ?_, ?_, ?_, ?_, ?_⟩
  · intro h
    rw [getYears] at h
    have h2 := List.mem_of_mem_filter h
    have h3 := (List.perm_insertionSort natDesc _).mem_iff.1 h2
    exact absurd (mem_validYears h3) (by omega)
  · intro row hrow
    rw [getGenderTrend, getGenderTrendCore] at hrow
    rcases List.mem_map.1 hrow with ⟨row0, h0, hatt⟩
    have hyr : row.year = row0.year := by rw [← hatt]
    rw [genderCounted] at h0
    obtain ⟨k, hk, heq⟩ := mem_groupSort h0
    obtain ⟨t, htb, hkt⟩ := exists_base_of_key hk
    rw [genderBase, List.mem_filter] at htb
    have hok : yearOk db t.e = true := by
      have hw := htb.2
      simp only [Bool.and_eq_true] at hw
      exact hw.1.1.1.1.2
    have hne := year_ne_of_yearOk hy hok
    rw [hyr, heq]
    show (k.1 : Option Nat) ≠ some y
    rw [← hkt]
    exact hne
  · intro row hrow
    rw [getWomenCandidates] at hrow
    obtain ⟨k, hk, heq⟩ := mem_groupSort hrow
    obtain ⟨t, htb, hkt⟩ := exists_base_of_key hk
    rw [wcBase, List.mem_filter] at htb
    have hok : yearOk db t.e = true := by
      have hw := htb.2
      simp only [Bool.and_eq_true] at hw
      exact hw.1.1.2
    have hne := year_ne_of_yearOk hy hok
    rw [heq]
    show (k.1 : Option Nat) ≠ some y
    rw [← hkt]
    exact hne
  · intro row hrow
    simp only [getNationalVsRegional] at hrow
    rcases List.mem_map.1 hrow with ⟨row0, h0, hatt⟩
    have hyr : row.year = row0.year := by rw [← hatt]
    obtain ⟨k, hk, heq⟩ := mem_groupSort h0
    obtain ⟨t, htb, hkt⟩ := exists_base_of_key hk
    rw [nvrBase, List.mem_filter] at htb
    have hok : yearOk db t.e = true := by
      have hw := htb.2
      simp only [Bool.and_eq_true] at hw
      exact hw.2
    have hne := year_ne_of_yearOk hy hok
    rw [hyr, heq]
    show (k.1 : Option Nat) ≠ some y
    rw [← hkt]
    exact hne
  · rw [getElections, electionsBase_empty hy state party q]
    simp
  · rw [getSeatShare, getSeatShareCore, seatCountRows,
      seatBase_empty hy state party gender _ constituency]
    rfl
  · rw [getTurnout, turnoutBase_empty hy state]
    rfl
  · rw [getVoteShareAgg, getVoteShareAggCore,
      aggPartyRows_empty hy state _ constituency gender]
    rfl
  · rw [getVoteShareByState, vsStateBase_empty hy party]
    rfl
  · rw [getKPIs, getKPIsCore, kpiBase_empty hy state _ constituency gender]
    rfl
  · rw [getMargins, getMarginsCore, marginsBase_empty hy state _ constituency]
    simp
  · rw [getClosestContests, closestBase_empty hy]
    rfl
  · intro row hrow
    have hc1 : seatCountsForYear db y = [] := by
      rw [seatCountsForYear, seatChangeBase_empty hy]
      rfl
    have hmem : row ∈ scPart1 (seatCountsForYear db y) (seatCountsForYear db y2)
        ++ scPart2 (seatCountsForYear db y) (seatCountsForYear db y2) := by
      have h2 := (List.perm_insertionSort
        (fun a b : SeatChangeRow => b.change ≤ a.change) _).mem_iff.1 hrow
      exact List.mem_dedup.1 h2
    rw [List.mem_append] at hmem
    rcases hmem with h | h
    · rw [hc1] at h
      exact absurd h (List.not_mem_nil _)
    · exact (scPart2_rows _ _ row h).2.2.1
  · intro row hrow
    have hc2 : seatCountsForYear db y = [] := by
      rw [seatCountsForYear, seatChangeBase_empty hy]
      rfl
    have hmem : row ∈ scPart1 (seatCountsForYear db y2) (seatCountsForYear db y)
        ++ scPart2 (seatCountsForYear db y2) (seatCountsForYear db y) := by
      have h2 := (List.perm_insertionSort
        (fun a b : SeatChangeRow => b.change ≤ a.change) _).mem_iff.1 hrow
      exact List.mem_dedup.1 h2
    rw [List.mem_append] at hmem
    rcases hmem with h | h
    · rw [scPart1, hc2] at h
      rcases List.mem_flatMap.1 h with ⟨a, _, hm⟩
      simp only [List.filter_nil, if_pos, List.mem_singleton] at hm
      rw [hm]
    · rw [scPart2, hc2] at h
      simp only [List.filter_nil, List.map_nil] at h
      exact absurd h (List.not_mem_nil _)

theorem claim_C7_witness :
    getSeatShare emptyDB 2000 none none none none none = [] :=
  (claim_C7_valid_year_threshold emptyDB 2000 (by decide) none none none none none
    none none 10 0 1999).2.2.2.2.2.1
